import Mathlib

/-!
# pwinty: a client for the Pwinty print API (`pwinty.go`)

A shallow embedding of `pwinty.go` and the properties of its request
construction, error propagation and response decoding.

Conventions of the embedding.

* Go `string` values are Lean `String`s (text; its UTF-8 bytes are what Go
  stores).  Go `int` values are `Int`; where the 64-bit range matters
  (decoding a JSON number into an `int` field) the bound is explicit.
* A Go result pair `(*T, error)` is a pair `Option T × Option Error`,
  `none` standing for `nil`.
* The HTTP client `c.httpClient` is a function from the request it is handed
  to the outcome of the round trip.  Every operation also reports the list of
  requests it handed to `c.httpClient.Do` (`Run.sent`).
* The standard library functions the code calls are embedded as far as the
  code depends on them: `strconv.Itoa`, the conversion `string(int)`,
  `url.QueryEscape`, `url.Values.Encode`, `http.Header.Set/Get`,
  `http.NewRequest`, `json.Unmarshal` into `Order` and `Photo`.  Of `url.Parse`,
  which `http.NewRequest` calls, the splitting of the text into a URL is
  embedded (`urlParse`); its validation is a parameter `Parse` (`some err`
  when the URL is rejected).
-/

namespace Pwinty

/-! ## Constants -/

def EndpointProduction : String := "https://api.pwinty.com"
def EndpointSandbox : String := "https://sandbox.pwinty.com"

def StatusNotYetSubmitted : String := "NotYetSubmitted"
def StatusSubmitted : String := "Submitted"
def StatusComplete : String := "Complete"
def StatusCancelled : String := "Cancelled"

def StatusAwaitingURLOrData : String := "AwaitingUrlOrData"
def StatusNotYetDownloaded : String := "NotYetDownloaded"
def StatusOk : String := "Ok"
def StatusFileNotFoundAtURL : String := "FileNotFoundAtUrl"
def StatusInvalid : String := "Invalid"

def SizingCrop : String := "Crop"
def SizingShrinkToFit : String := "ShrinkToFit"
def SizingShrinkToExactFit : String := "ShrinkToExactFit"

/-! ## Errors -/

/-- Go `error` values the client can return. -/
inductive Error where
  /-- The method was rejected by `http.NewRequest`. -/
  | method (msg : String)
  /-- The URL was rejected by `url.Parse` (inside `http.NewRequest`). -/
  | url (msg : String)
  /-- The round trip `c.httpClient.Do(req)` failed. -/
  | transport (msg : String)
  /-- Reading the response body (`ioutil.ReadAll`) failed. -/
  | read (msg : String)
  /-- A `*json.SyntaxError`: the body is not a JSON text. -/
  | invalidJSON
  /-- A `*json.UnmarshalTypeError`: a JSON value does not fit the Go field. -/
  | typeMismatch
  deriving DecidableEq, Repr

/-! ## Data model -/

/-- A Go slice: `none` is the nil slice. -/
abbrev Slice (α : Type) := Option (List α)

structure Photo where
  ID : Int
  /-- The Go field `Type` (a reserved word here). -/
  Type_ : String
  URL : String
  Status : String
  Copies : Int
  Sizing : String
  Errors : Slice String
  Warnings : Slice String
  deriving DecidableEq, Repr

structure Order where
  ID : Int
  IsValid : Bool
  GeneralErrors : Slice String
  RecipientName : String
  Address1 : String
  Address2 : String
  AddressTownOrCity : String
  StateOrCounty : String
  PostalOrZipCode : String
  Country : String
  Status : String
  Photos : Slice Photo
  deriving DecidableEq, Repr

/-- The Go value `Photo{}`. -/
def Photo.zero : Photo :=
  { ID := 0, Type_ := "", URL := "", Status := "", Copies := 0, Sizing := "",
    Errors := none, Warnings := none }

/-- The Go value `Order{}`. -/
def Order.zero : Order :=
  { ID := 0, IsValid := false, GeneralErrors := none, RecipientName := "",
    Address1 := "", Address2 := "", AddressTownOrCity := "", StateOrCounty := "",
    PostalOrZipCode := "", Country := "", Status := "", Photos := none }

/-! ## `strconv.Itoa` and the conversion `string(int)` -/

/-- Go `strconv.Itoa`: the decimal representation of an integer. -/
def Itoa : Int → String
  | Int.ofNat m => String.mk (Nat.toDigits 10 m)
  | Int.negSucc m => String.mk ('-' :: Nat.toDigits 10 (m + 1))

/-- Go conversion `string(i)` of an integer `i`: the UTF-8 text of the code
point `i`, and U+FFFD when `i` is not a valid code point. -/
def string (i : Int) : String :=
  if 0 ≤ i ∧ (i < 0xD800 ∨ (0xDFFF < i ∧ i < 0x110000)) then
    String.mk [Char.ofNat i.toNat]
  else
    String.mk [Char.ofNat 0xFFFD]

/-! ## `net/url`: query escaping and `Values.Encode` -/

/-- Upper-case hexadecimal digit (`"0123456789ABCDEF"[n]`). -/
def upperhex (n : Nat) : Char :=
  if n < 10 then Char.ofNat (48 + n) else Char.ofNat (55 + n)

/-- Go `shouldEscape(c, encodeQueryComponent)` is false exactly for the
unreserved characters: ASCII letters, digits, `-`, `_`, `.`, `~`. -/
def unreserved (c : Char) : Bool :=
  c.isAlphanum || c == '-' || c == '_' || c == '.' || c == '~'

/-- One character of `url.QueryEscape`'s output: unreserved characters are
kept, a space becomes `+`, every other byte of the character's UTF-8 encoding
becomes `%XX`. -/
def escapeChar (c : Char) : List Char :=
  if unreserved c then [c]
  else if c == ' ' then ['+']
  else (String.utf8EncodeChar c).flatMap
    (fun b => ['%', upperhex (b.toNat / 16), upperhex (b.toNat % 16)])

/-- Go `url.QueryEscape`. -/
def QueryEscape (s : String) : String :=
  String.mk (s.data.flatMap escapeChar)

/-- Go `url.Values`: the keys of the map with their value lists (keys are
distinct). -/
abbrev Values := List (String × List String)

/-- Go's string order `a < b` (byte-wise, which on UTF-8 text is the order of
the code points). -/
def lexLt : List Char → List Char → Bool
  | [], [] => false
  | [], _ :: _ => true
  | _ :: _, [] => false
  | a :: as, b :: bs => a.toNat < b.toNat || (a == b && lexLt as bs)

/-- Insert an entry into a key-sorted list of entries. -/
def insertByKey (e : String × List String) : Values → Values
  | [] => [e]
  | x :: xs => if lexLt x.1.data e.1.data then x :: insertByKey e xs else e :: x :: xs

/-- The entries in the order of `sort.Strings(keys)`. -/
def sortByKey : Values → Values
  | [] => []
  | e :: es => insertByKey e (sortByKey es)

/-- The `key=value` pieces `Values.Encode` writes, in order. -/
def encodePairs : Values → List (List Char)
  | [] => []
  | (k, vs) :: rest =>
    vs.map (fun v => (QueryEscape k).data ++ '=' :: (QueryEscape v).data) ++ encodePairs rest

/-- Join the pieces with `&`. -/
def joinAmp : List (List Char) → List Char
  | [] => []
  | [p] => p
  | p :: q :: rest => p ++ '&' :: joinAmp (q :: rest)

/-- Go `url.Values.Encode`: the URL-encoded form, sorted by key. -/
def Values.Encode (v : Values) : String :=
  String.mk (joinAmp (encodePairs (sortByKey v)))

/-! ## `net/http`: headers, requests, responses -/

/-- Go `http.Header`: canonical keys with their values. -/
abbrev Header := List (String × List String)

/-- Token bytes of RFC 7230, the bytes allowed in a header field name and in a
method. -/
def validHeaderFieldByte (c : Char) : Bool :=
  c.isAlphanum ||
    [33, 35, 36, 37, 38, 39, 42, 43, 45, 46, 94, 95, 96, 124, 126].contains c.toNat

/-- The loop of `canonicalMIMEHeaderKey`: upper case at the start and after
each `-`, lower case elsewhere. -/
def canonicalLoop : Bool → List Char → List Char
  | _, [] => []
  | upper, c :: cs =>
    (if upper then c.toUpper else c.toLower) :: canonicalLoop (c == '-') cs

/-- Go `textproto.CanonicalMIMEHeaderKey`: a key with a byte that is not a
token byte is returned unchanged. -/
def CanonicalMIMEHeaderKey (s : String) : String :=
  if s.data.all validHeaderFieldByte then String.mk (canonicalLoop true s.data) else s

/-- Go `Header.Set`: the key's entry is replaced by the single value. -/
def Header.Set (h : Header) (key value : String) : Header :=
  let k := CanonicalMIMEHeaderKey key
  (k, [value]) :: h.filter (fun e => e.1 != k)

/-- Go `Header.Values`: the values stored under the key. -/
def Header.Values (h : Header) (key : String) : Option (List String) :=
  h.lookup (CanonicalMIMEHeaderKey key)

/-- Go `Header.Get`: the first value stored under the key, or `""`. -/
def Header.Get (h : Header) (key : String) : String :=
  match h.lookup (CanonicalMIMEHeaderKey key) with
  | some (v :: _) => v
  | _ => ""

/-! ### `net/url`: the URL of a request

`url.Parse` both validates a text and splits it.  Its validation (control
characters, the authority, the escapes) is the parameter `Parse` of
`NewRequest`; the splitting is `urlParse`. -/

/-- Go `strings.Cut(s, sep)` for a one-character separator: the text before
the first separator and the text after it (empty when there is none). -/
def cut (sep : Char) : List Char → List Char × List Char
  | [] => ([], [])
  | c :: cs => if c = sep then ([], cs) else ((cut sep cs).1.cons c, (cut sep cs).2)

/-- The loop of Go `getScheme`: the scheme and the text after its `:`, or
`none` when the text has no scheme (a character that cannot be in a scheme
comes before any `:`, or the text starts with a digit, `+`, `-`, `.` or
`:`). -/
def getSchemeLoop : Bool → List Char → Option (List Char × List Char)
  | _, [] => none
  | first, c :: cs =>
    if c.isAlpha then
      match getSchemeLoop false cs with
      | none => none
      | some (s, r) => some (c :: s, r)
    else if c.isDigit || c == '+' || c == '-' || c == '.' then
      if first then none
      else
        match getSchemeLoop false cs with
        | none => none
        | some (s, r) => some (c :: s, r)
    else if c == ':' then
      if first then none else some ([], cs)
    else none

/-- Go `getScheme`: the scheme (empty when there is none) and the rest of the
text.  (For a text that starts with `:` Go reports `missing protocol scheme`;
such a text is one `url.Parse` rejects.) -/
def getScheme (raw : List Char) : List Char × List Char :=
  match getSchemeLoop true raw with
  | some (s, r) => (s, r)
  | none => ([], raw)

/-- A URL as `url.Parse` splits it.  `Authority`, `PathText` and
`FragmentText` are the texts Go hands to `parseAuthority`, `setPath` and
`setFragment`, which store them decoded (as `User` and `Host`, `Path` and
`RawPath`, `Fragment` and `RawFragment`). -/
structure URL where
  Scheme : String
  Opaque : String
  Authority : String
  PathText : String
  ForceQuery : Bool
  RawQuery : String
  FragmentText : String
  deriving DecidableEq, Repr

/-- The part of Go `parse` after the scheme and the query are split off: a
rootless rest after a scheme is opaque; a rest that starts with `//` has an
authority, up to the next `/`; what remains is the path. -/
def urlOf (scheme rest : List Char) (force : Bool) (query frag : List Char) : URL :=
  if !(['/'].isPrefixOf rest) && !scheme.isEmpty then
    { Scheme := String.mk scheme, Opaque := String.mk rest, Authority := "", PathText := "",
      ForceQuery := force, RawQuery := String.mk query, FragmentText := String.mk frag }
  else if (!scheme.isEmpty || !(['/', '/', '/'].isPrefixOf rest)) &&
      ['/', '/'].isPrefixOf rest then
    { Scheme := String.mk scheme, Opaque := "",
      Authority := String.mk ((rest.drop 2).span (fun c => c != '/')).1,
      PathText := String.mk ((rest.drop 2).span (fun c => c != '/')).2,
      ForceQuery := force, RawQuery := String.mk query, FragmentText := String.mk frag }
  else
    { Scheme := String.mk scheme, Opaque := "", Authority := "", PathText := String.mk rest,
      ForceQuery := force, RawQuery := String.mk query, FragmentText := String.mk frag }

/-- The URL Go `url.Parse` returns for a text it accepts: the fragment is cut
off at the first `#`, the scheme is split off and put in lower case, the
query is cut off at the first `?` (a lone `?` at the end sets `ForceQuery`). -/
def urlParse (raw : String) : URL :=
  let u := (cut '#' raw.data).1
  let frag := (cut '#' raw.data).2
  let scheme := (getScheme u).1.map Char.toLower
  let rest := (getScheme u).2
  if rest.getLast? = some '?' ∧ rest.count '?' = 1 then
    urlOf scheme rest.dropLast true [] frag
  else
    urlOf scheme (cut '?' rest).1 false (cut '?' rest).2 frag

/-- Go `removeEmptyPort` on the authority: a `:` at its end, an empty port, is
dropped. -/
def removeEmptyPort (authority : String) : String :=
  if authority.data.getLast? = some ':' then String.mk authority.data.dropLast else authority

/-- The URL `http.NewRequest` stores in the request for a text `url.Parse`
accepts. -/
def requestURL (url : String) : URL :=
  { urlParse url with Authority := removeEmptyPort (urlParse url).Authority }

/-- The fields of `*http.Request` the client sets.  `URL` is the parsed URL;
`Body` is `none` for a nil body. -/
structure Request where
  Method : String
  URL : URL
  Header : Header
  Body : Option String
  deriving DecidableEq, Repr

/-- The parts of `*http.Response` the client can look at.  `Body` is what
`ioutil.ReadAll(resp.Body)` returns. -/
structure Response where
  StatusCode : Nat
  Body : Except Error String

/-- The behaviour of `(*http.Client).Do`. -/
abbrev HttpClient := Request → Except Error Response

/-- Go `validMethod`: a non-empty token. -/
def validMethod (method : String) : Bool :=
  !method.data.isEmpty && method.data.all validHeaderFieldByte

/-- Go `http.NewRequest(method, url, body)`: an empty method means `GET`.
`Parse` is the validation of `url.Parse`, giving `some err` when it rejects
the URL. -/
def NewRequest (Parse : String → Option Error) (method url : String)
    (body : Option String) : Except Error Request :=
  if !validMethod (if method = "" then "GET" else method) then
    .error (Error.method method)
  else
    match Parse url with
    | some err => .error err
    | none =>
      .ok { Method := if method = "" then "GET" else method, URL := requestURL url,
            Header := [], Body := body }

/-! ## `encoding/json`: reading a JSON text

`json.Unmarshal` first checks that the whole input is one JSON value
(`checkValid`), then stores the value's members into the target struct.  The
nesting limit of later Go versions (10000 levels) is not part of the model. -/

/-- A JSON value.  A number keeps its literal. -/
inductive JSON where
  | null
  | bool (b : Bool)
  | num (lit : List Char)
  | str (s : String)
  | arr (elems : List JSON)
  | obj (members : List (String × JSON))

/-- JSON white space. -/
def isSpace (c : Char) : Bool :=
  c == ' ' || c == '\t' || c == '\r' || c == '\n'

def skipWS : List Char → List Char
  | [] => []
  | c :: cs => if isSpace c then skipWS cs else c :: cs

/-- The value of a hexadecimal digit. -/
def hexVal (c : Char) : Option Nat :=
  if '0' ≤ c ∧ c ≤ '9' then some (c.toNat - 48)
  else if 'a' ≤ c ∧ c ≤ 'f' then some (c.toNat - 87)
  else if 'A' ≤ c ∧ c ≤ 'F' then some (c.toNat - 55)
  else none

/-- The four hexadecimal digits of a `\u` escape (Go `getu4`). -/
def hex4 (a b c d : Char) : Option Nat :=
  match hexVal a, hexVal b, hexVal c, hexVal d with
  | some x, some y, some z, some w => some (((x * 16 + y) * 16 + z) * 16 + w)
  | _, _, _, _ => none

/-- The character of a one-letter escape. -/
def unescape (e : Char) : Option Char :=
  if e = '"' then some '"'
  else if e = '\\' then some '\\'
  else if e = '/' then some '/'
  else if e = 'b' then some (Char.ofNat 8)
  else if e = 'f' then some (Char.ofNat 12)
  else if e = 'n' then some '\n'
  else if e = 'r' then some '\r'
  else if e = 't' then some '\t'
  else none

/-- A piece of a string literal: a character (written literally or by a
one-letter escape) or the 16-bit unit of a `\u` escape. -/
inductive StrUnit where
  | chr (c : Char)
  | u16 (n : Nat)

/-- Read a string literal after its opening quote, up to and including the
closing quote.  A control character, an unknown escape or the end of the
input make it fail. -/
def scanString : List Char → Option (List StrUnit × List Char)
  | [] => none
  | c :: rest =>
    if c = '"' then some ([], rest)
    else if c = '\\' then
      match rest with
      | [] => none
      | e :: rest1 =>
        if e = 'u' then
          match rest1 with
          | a :: b :: c :: d :: rest2 =>
            match hex4 a b c d with
            | none => none
            | some n =>
              match scanString rest2 with
              | none => none
              | some (us, r) => some (StrUnit.u16 n :: us, r)
          | _ => none
        else
          match unescape e with
          | none => none
          | some ch =>
            match scanString rest1 with
            | none => none
            | some (us, r) => some (StrUnit.chr ch :: us, r)
    else if c.toNat < 0x20 then none
    else
      match scanString rest with
      | none => none
      | some (us, r) => some (StrUnit.chr c :: us, r)

/-- The character of a `\u` escape that is not the first half of a valid
surrogate pair: U+FFFD in the surrogate range. -/
def loneUnit (n : Nat) : Char :=
  if 0xD800 ≤ n ∧ n < 0xE000 then Char.ofNat 0xFFFD else Char.ofNat n

/-- The text of a string literal (Go `unquote`): a `\u` escape of a high
surrogate directly followed by a `\u` escape of a low surrogate is the one
character of the pair. -/
def decodeUnits : List StrUnit → List Char
  | [] => []
  | StrUnit.chr c :: us => c :: decodeUnits us
  | [StrUnit.u16 hi] => [loneUnit hi]
  | StrUnit.u16 hi :: StrUnit.chr c :: us => loneUnit hi :: c :: decodeUnits us
  | StrUnit.u16 hi :: StrUnit.u16 lo :: us =>
    if 0xD800 ≤ hi ∧ hi < 0xDC00 ∧ 0xDC00 ≤ lo ∧ lo < 0xE000 then
      Char.ofNat ((hi - 0xD800) * 1024 + (lo - 0xDC00) + 0x10000) :: decodeUnits us
    else loneUnit hi :: decodeUnits (StrUnit.u16 lo :: us)

/-- The longest run of decimal digits at the front, and what follows. -/
def takeDigits : List Char → List Char × List Char
  | [] => ([], [])
  | c :: cs =>
    if c.isDigit then ((takeDigits cs).1.cons c, (takeDigits cs).2) else ([], c :: cs)

/-- The integer part of a number: `0`, or a digit `1`-`9` and more digits. -/
def scanInt : List Char → Option (List Char × List Char)
  | [] => none
  | c :: cs =>
    if c = '0' then some (['0'], cs)
    else if c.isDigit then some (c :: (takeDigits cs).1, (takeDigits cs).2)
    else none

/-- The optional fraction: `.` and at least one digit. -/
def scanFrac : List Char → Option (List Char × List Char)
  | [] => some ([], [])
  | c :: cs =>
    if c = '.' then
      if (takeDigits cs).1.isEmpty then none
      else some ('.' :: (takeDigits cs).1, (takeDigits cs).2)
    else some ([], c :: cs)

/-- The digits of an exponent, after its optional sign. -/
def scanExpDigits (front : List Char) (cs : List Char) : Option (List Char × List Char) :=
  if (takeDigits cs).1.isEmpty then none
  else some (front ++ (takeDigits cs).1, (takeDigits cs).2)

/-- The optional exponent: `e` or `E`, an optional sign, at least one digit. -/
def scanExp : List Char → Option (List Char × List Char)
  | [] => some ([], [])
  | c :: cs =>
    if c = 'e' ∨ c = 'E' then
      match cs with
      | [] => none
      | s :: cs1 =>
        if s = '+' ∨ s = '-' then scanExpDigits [c, s] cs1 else scanExpDigits [c] (s :: cs1)
    else some ([], c :: cs)

/-- A number literal and what follows it. -/
def scanNumber (cs : List Char) : Option (List Char × List Char) :=
  let sr : List Char × List Char :=
    match cs with
    | [] => ([], [])
    | c :: cs1 => if c = '-' then (['-'], cs1) else ([], c :: cs1)
  match scanInt sr.2 with
  | none => none
  | some (i, r1) =>
    match scanFrac r1 with
    | none => none
    | some (f, r2) =>
      match scanExp r2 with
      | none => none
      | some (e, r3) => some (sr.1 ++ i ++ f ++ e, r3)

/-- The elements of a non-empty array, after `[`: values separated by `,`, up
to and including `]`.  `pv` reads one value. -/
def parseElems (pv : List Char → Option (JSON × List Char)) :
    Nat → List Char → Option (List JSON × List Char)
  | 0, _ => none
  | n + 1, cs =>
    match pv (skipWS cs) with
    | none => none
    | some (v, rest) =>
      match skipWS rest with
      | [] => none
      | c :: rest1 =>
        if c = ',' then
          match parseElems pv n rest1 with
          | none => none
          | some (vs, r) => some (v :: vs, r)
        else if c = ']' then some ([v], rest1)
        else none

/-- The members of a non-empty object, after `{` and white space:
`"key" : value` separated by `,`, up to and including `}`. -/
def parseMembers (pv : List Char → Option (JSON × List Char)) :
    Nat → List Char → Option (List (String × JSON) × List Char)
  | 0, _ => none
  | n + 1, cs =>
    match cs with
    | [] => none
    | q :: cs1 =>
      if q = '"' then
        match scanString cs1 with
        | none => none
        | some (us, r1) =>
          match skipWS r1 with
          | [] => none
          | colon :: r2 =>
            if colon = ':' then
              match pv (skipWS r2) with
              | none => none
              | some (v, r3) =>
                match skipWS r3 with
                | [] => none
                | c :: r4 =>
                  if c = ',' then
                    match parseMembers pv n (skipWS r4) with
                    | none => none
                    | some (ms, r) => some ((String.mk (decodeUnits us), v) :: ms, r)
                  else if c = '}' then some ([(String.mk (decodeUnits us), v)], r4)
                  else none
            else none
      else none

/-- Read the literal `word` (the rest of `true`, `false` or `null`). -/
def expectWord (word : List Char) (cs : List Char) : Option (List Char) :=
  if word.isPrefixOf cs then some (cs.drop word.length) else none

/-- Read one JSON value at the front of the input (which starts at the value's
first character).  `fuel` bounds the nesting and the number of members. -/
def parseValue : Nat → List Char → Option (JSON × List Char)
  | 0, _ => none
  | fuel + 1, cs =>
    match cs with
    | [] => none
    | c :: rest =>
      if c = '{' then
        match skipWS rest with
        | [] => none
        | d :: rest1 =>
          if d = '}' then some (JSON.obj [], rest1)
          else
            match parseMembers (parseValue fuel) fuel (d :: rest1) with
            | none => none
            | some (ms, r) => some (JSON.obj ms, r)
      else if c = '[' then
        match skipWS rest with
        | [] => none
        | d :: rest1 =>
          if d = ']' then some (JSON.arr [], rest1)
          else
            match parseElems (parseValue fuel) fuel (d :: rest1) with
            | none => none
            | some (vs, r) => some (JSON.arr vs, r)
      else if c = '"' then
        match scanString rest with
        | none => none
        | some (us, r) => some (JSON.str (String.mk (decodeUnits us)), r)
      else if c = 't' then (expectWord ['r', 'u', 'e'] rest).map (fun r => (JSON.bool true, r))
      else if c = 'f' then
        (expectWord ['a', 'l', 's', 'e'] rest).map (fun r => (JSON.bool false, r))
      else if c = 'n' then (expectWord ['u', 'l', 'l'] rest).map (fun r => (JSON.null, r))
      else
        match scanNumber (c :: rest) with
        | none => none
        | some (lit, r) => some (JSON.num lit, r)

/-- The JSON value that is the whole input, white space around it allowed;
`none` when the input is not a JSON text (Go `checkValid` fails). -/
def parseJSON (data : String) : Option JSON :=
  match parseValue (data.data.length + 1) (skipWS data.data) with
  | none => none
  | some (v, rest) => if (skipWS rest).isEmpty then some v else none

/-! ## `encoding/json`: storing a JSON value into `Order` and `Photo`

A decoder of a field takes the JSON value and the field's current value, and
gives the field's new value and whether an `UnmarshalTypeError` was recorded
(Go records the first one and goes on decoding). -/

/-- The value of a run of decimal digits. -/
def digitsValue (ds : List Char) : Nat :=
  ds.foldl (fun a c => 10 * a + (c.toNat - 48)) 0

/-- Go `strconv.ParseInt(lit, 10, 64)` on a JSON number literal: an optional
`-` and decimal digits only, within the range of a 64-bit integer (Go `int`
on a 64-bit platform). -/
def ParseInt : List Char → Option Int
  | [] => none
  | c :: cs =>
    if c = '-' then
      if !cs.isEmpty && cs.all Char.isDigit && decide (digitsValue cs ≤ 2 ^ 63) then
        some (-(digitsValue cs : Int))
      else none
    else if (c :: cs).all Char.isDigit && decide (digitsValue (c :: cs) < 2 ^ 63) then
      some (digitsValue (c :: cs) : Int)
    else none

/-- Store into an `int` field. -/
def decInt (v : JSON) (cur : Int) : Int × Bool :=
  match v with
  | JSON.null => (cur, false)
  | JSON.num lit =>
    match ParseInt lit with
    | some n => (n, false)
    | none => (cur, true)
  | _ => (cur, true)

/-- Store into a `bool` field. -/
def decBool (v : JSON) (cur : Bool) : Bool × Bool :=
  match v with
  | JSON.null => (cur, false)
  | JSON.bool b => (b, false)
  | _ => (cur, true)

/-- Store into a `string` field. -/
def decString (v : JSON) (cur : String) : String × Bool :=
  match v with
  | JSON.null => (cur, false)
  | JSON.str s => (s, false)
  | _ => (cur, true)

/-- Store the elements of a JSON array into the elements of a slice: the
element at an index the slice already has starts from its current value, a
new one from the zero value.  (A slice has elements before the call only when
an object repeats a key; what Go then finds in the spare capacity of the old
slice is not part of the model.) -/
def decElems {α : Type} (dec : JSON → α → α × Bool) (zero : α) :
    List JSON → List α → List α × Bool
  | [], _ => ([], false)
  | e :: es, cur =>
    ((dec e (cur.headD zero)).1 :: (decElems dec zero es cur.tail).1,
      (dec e (cur.headD zero)).2 || (decElems dec zero es cur.tail).2)

/-- Store into a slice field: `null` gives the nil slice, an array a slice of
its length (empty, not nil, for `[]`). -/
def decSlice {α : Type} (dec : JSON → α → α × Bool) (zero : α) (v : JSON)
    (cur : Slice α) : Slice α × Bool :=
  match v with
  | JSON.null => (none, false)
  | JSON.arr es => (some (decElems dec zero es (cur.getD [])).1,
      (decElems dec zero es (cur.getD [])).2)
  | _ => (cur, true)

/-- Case folding of a character of an object key: ASCII letters to lower
case, the Kelvin sign to `k`, the long s to `s`. -/
def foldChar (c : Char) : Char :=
  if c.toNat = 0x212A then 'k' else if c.toNat = 0x17F then 's' else c.toLower

/-- An object key names the field with JSON name `name`: equal up to case
folding (no two fields of `Order`, or of `Photo`, have names equal up to
folding, so the preference for an exact match never decides). -/
def foldEq (key name : String) : Bool :=
  key.data.map foldChar == name.data.map foldChar

/-- Store one object member into a `Photo`; a key that names no field is
ignored. -/
def Photo.setField (st : Photo × Bool) (m : String × JSON) : Photo × Bool :=
  if foldEq m.1 "id" then
    ({ st.1 with ID := (decInt m.2 st.1.ID).1 }, st.2 || (decInt m.2 st.1.ID).2)
  else if foldEq m.1 "type" then
    ({ st.1 with Type_ := (decString m.2 st.1.Type_).1 }, st.2 || (decString m.2 st.1.Type_).2)
  else if foldEq m.1 "url" then
    ({ st.1 with URL := (decString m.2 st.1.URL).1 }, st.2 || (decString m.2 st.1.URL).2)
  else if foldEq m.1 "status" then
    ({ st.1 with Status := (decString m.2 st.1.Status).1 },
      st.2 || (decString m.2 st.1.Status).2)
  else if foldEq m.1 "copies" then
    ({ st.1 with Copies := (decInt m.2 st.1.Copies).1 }, st.2 || (decInt m.2 st.1.Copies).2)
  else if foldEq m.1 "sizing" then
    ({ st.1 with Sizing := (decString m.2 st.1.Sizing).1 },
      st.2 || (decString m.2 st.1.Sizing).2)
  else if foldEq m.1 "errors" then
    ({ st.1 with Errors := (decSlice decString "" m.2 st.1.Errors).1 },
      st.2 || (decSlice decString "" m.2 st.1.Errors).2)
  else if foldEq m.1 "warnings" then
    ({ st.1 with Warnings := (decSlice decString "" m.2 st.1.Warnings).1 },
      st.2 || (decSlice decString "" m.2 st.1.Warnings).2)
  else st

/-- Store a JSON value into a `Photo`: the members of an object in order,
nothing for `null`, a type error for anything else. -/
def decodePhoto (v : JSON) (cur : Photo) : Photo × Bool :=
  match v with
  | JSON.null => (cur, false)
  | JSON.obj ms => ms.foldl Photo.setField (cur, false)
  | _ => (cur, true)

/-- Store one object member into an `Order`; a key that names no field is
ignored. -/
def Order.setField (st : Order × Bool) (m : String × JSON) : Order × Bool :=
  if foldEq m.1 "id" then
    ({ st.1 with ID := (decInt m.2 st.1.ID).1 }, st.2 || (decInt m.2 st.1.ID).2)
  else if foldEq m.1 "isValid" then
    ({ st.1 with IsValid := (decBool m.2 st.1.IsValid).1 },
      st.2 || (decBool m.2 st.1.IsValid).2)
  else if foldEq m.1 "generalErrors" then
    ({ st.1 with GeneralErrors := (decSlice decString "" m.2 st.1.GeneralErrors).1 },
      st.2 || (decSlice decString "" m.2 st.1.GeneralErrors).2)
  else if foldEq m.1 "recipientName" then
    ({ st.1 with RecipientName := (decString m.2 st.1.RecipientName).1 },
      st.2 || (decString m.2 st.1.RecipientName).2)
  else if foldEq m.1 "address1" then
    ({ st.1 with Address1 := (decString m.2 st.1.Address1).1 },
      st.2 || (decString m.2 st.1.Address1).2)
  else if foldEq m.1 "address2" then
    ({ st.1 with Address2 := (decString m.2 st.1.Address2).1 },
      st.2 || (decString m.2 st.1.Address2).2)
  else if foldEq m.1 "addressTownOrCity" then
    ({ st.1 with AddressTownOrCity := (decString m.2 st.1.AddressTownOrCity).1 },
      st.2 || (decString m.2 st.1.AddressTownOrCity).2)
  else if foldEq m.1 "stateOrCounty" then
    ({ st.1 with StateOrCounty := (decString m.2 st.1.StateOrCounty).1 },
      st.2 || (decString m.2 st.1.StateOrCounty).2)
  else if foldEq m.1 "postalOrZipCode" then
    ({ st.1 with PostalOrZipCode := (decString m.2 st.1.PostalOrZipCode).1 },
      st.2 || (decString m.2 st.1.PostalOrZipCode).2)
  else if foldEq m.1 "country" then
    ({ st.1 with Country := (decString m.2 st.1.Country).1 },
      st.2 || (decString m.2 st.1.Country).2)
  else if foldEq m.1 "status" then
    ({ st.1 with Status := (decString m.2 st.1.Status).1 },
      st.2 || (decString m.2 st.1.Status).2)
  else if foldEq m.1 "photos" then
    ({ st.1 with Photos := (decSlice decodePhoto Photo.zero m.2 st.1.Photos).1 },
      st.2 || (decSlice decodePhoto Photo.zero m.2 st.1.Photos).2)
  else st

/-- Store a JSON value into an `Order`. -/
def decodeOrder (v : JSON) (cur : Order) : Order × Bool :=
  match v with
  | JSON.null => (cur, false)
  | JSON.obj ms => ms.foldl Order.setField (cur, false)
  | _ => (cur, true)

/-- Go `json.Unmarshal(data, order)` for `order *Order`: the order after the
call and the error returned.  An input that is not a JSON text leaves the
order untouched. -/
def UnmarshalOrder (data : String) (order : Order) : Order × Option Error :=
  match parseJSON data with
  | none => (order, some Error.invalidJSON)
  | some v =>
    ((decodeOrder v order).1,
      if (decodeOrder v order).2 then some Error.typeMismatch else none)

/-- Go `json.Unmarshal(data, photo)` for `photo *Photo`. -/
def UnmarshalPhoto (data : String) (photo : Photo) : Photo × Option Error :=
  match parseJSON data with
  | none => (photo, some Error.invalidJSON)
  | some v =>
    ((decodePhoto v photo).1,
      if (decodePhoto v photo).2 then some Error.typeMismatch else none)

/-! ## The client -/

structure Client where
  httpClient : HttpClient
  merchantID : String
  apiKey : String
  endpoint : String

/-- Instantiate a new Client (`NewClient`); if `httpClient` is nil
(`none`), `http.DefaultClient` is used. -/
def NewClient (DefaultClient : HttpClient) (merchantID apiKey endpoint : String)
    (httpClient : Option HttpClient) : Client :=
  let c := match httpClient with
    | none => DefaultClient
    | some h => h
  { httpClient := c, merchantID := merchantID, apiKey := apiKey, endpoint := endpoint }

/-- Set the headers for an authenticated request on the API. -/
def Client.setAuthenticationHeaders (c : Client) (req : Request) : Request :=
  let req := { req with Header := req.Header.Set "X-Pwinty-MerchantId" c.merchantID }
  { req with Header := req.Header.Set "X-Pwinty-REST-API-Key" c.apiKey }

def Client.prepareGetRequest (Parse : String → Option Error) (c : Client) (path : String)
    (values : Option Values) : Except Error Request :=
  let url := c.endpoint ++ path
  let url := match values with
    | some v => url ++ "?" ++ v.Encode
    | none => url
  match NewRequest Parse "GET" url none with
  | .error err => .error err
  | .ok req => .ok (c.setAuthenticationHeaders req)

def Client.prepareFormRequest (Parse : String → Option Error) (c : Client)
    (method path : String) (values : Values) : Except Error Request :=
  match NewRequest Parse method (c.endpoint ++ path) (some values.Encode) with
  | .error err => .error err
  | .ok req =>
    let req := { req with
      Header := req.Header.Set "Content-Type" "application/x-www-form-urlencoded" }
    .ok (c.setAuthenticationHeaders req)

/-- The outcome of one call of an operation: what it returns and the requests
it handed to `c.httpClient.Do`, in order. -/
structure Run (ρ : Type) where
  ret : ρ
  sent : List Request

def Client.GetOrder (Parse : String → Option Error) (c : Client) (id : Int) :
    Run (Option Order × Option Error) :=
  match c.prepareGetRequest Parse "/Orders" (some [("id", [Itoa id])]) with
  | .error err => ⟨(none, some err), []⟩
  | .ok req =>
    match c.httpClient req with
    | .error err => ⟨(none, some err), [req]⟩
    | .ok resp =>
      match resp.Body with
      | .error err => ⟨(none, some err), [req]⟩
      | .ok body =>
        match (UnmarshalOrder body Order.zero).2 with
        | some err => ⟨(none, some err), [req]⟩
        | none => ⟨(some (UnmarshalOrder body Order.zero).1, none), [req]⟩

/-- Create a new order on the pwinty API (`PostOrder`). -/
def Client.PostOrder (Parse : String → Option Error) (c : Client)
    (recipientName address1 address2 town state zip country : String) :
    Run (Option Order × Option Error) :=
  match c.prepareFormRequest Parse "POST" "/Orders"
      [("recipientName", [recipientName]),
       ("address1", [address1]),
       ("address2", [address2]),
       ("addressTownOrCity", [town]),
       ("stateOrCounty", [state]),
       ("postalOrZipCode", [zip]),
       ("country", [country])] with
  | .error err => ⟨(none, some err), []⟩
  | .ok req =>
    match c.httpClient req with
    | .error err => ⟨(none, some err), [req]⟩
    | .ok resp =>
      match resp.Body with
      | .error err => ⟨(none, some err), [req]⟩
      | .ok body =>
        match (UnmarshalOrder body Order.zero).2 with
        | some err => ⟨(none, some err), [req]⟩
        | none => ⟨(some (UnmarshalOrder body Order.zero).1, none), [req]⟩

def Client.OrderStatus (Parse : String → Option Error) (c : Client) (id : Int)
    (status : String) : Run (Option Error) :=
  match c.prepareFormRequest Parse "POST" "/Orders/Status"
      [("id", [string id]), ("status", [status])] with
  | .error err => ⟨some err, []⟩
  | .ok req =>
    match c.httpClient req with
    | .error err => ⟨some err, [req]⟩
    | .ok _ => ⟨none, [req]⟩

def Client.SubmissionStatus (Parse : String → Option Error) (c : Client) (id : Int) :
    Run (Option Order × Option Error) :=
  match c.prepareGetRequest Parse "/Orders/SubmissionStatus" (some [("id", [Itoa id])]) with
  | .error err => ⟨(none, some err), []⟩
  | .ok req =>
    match c.httpClient req with
    | .error err => ⟨(none, some err), [req]⟩
    | .ok resp =>
      match resp.Body with
      | .error err => ⟨(none, some err), [req]⟩
      | .ok body =>
        match (UnmarshalOrder body Order.zero).2 with
        | some err => ⟨(none, some err), [req]⟩
        | none => ⟨(some (UnmarshalOrder body Order.zero).1, none), [req]⟩

def Client.PostPhotoURL (Parse : String → Option Error) (c : Client) (orderId : Int)
    (photoType photoUrl : String) (copies : Int) (sizing : String) :
    Run (Option Photo × Option Error) :=
  match c.prepareFormRequest Parse "POST" "/Photos"
      [("orderId", [string orderId]),
       ("type", [photoType]),
       ("url", [photoUrl]),
       ("copies", [string copies]),
       ("sizing", [sizing])] with
  | .error err => ⟨(none, some err), []⟩
  | .ok req =>
    match c.httpClient req with
    | .error err => ⟨(none, some err), [req]⟩
    | .ok resp =>
      match resp.Body with
      | .error err => ⟨(none, some err), [req]⟩
      | .ok body =>
        match (UnmarshalPhoto body Photo.zero).2 with
        | some err => ⟨(none, some err), [req]⟩
        | none => ⟨(some (UnmarshalPhoto body Photo.zero).1, none), [req]⟩

/-! ## The requests the operations build, and fixtures -/

/-- The request `prepareGetRequest` builds, when `url.Parse` accepts the URL. -/
def getRequest (c : Client) (url : String) : Request :=
  { Method := "GET", URL := requestURL url,
    Header := [("X-Pwinty-Rest-Api-Key", [c.apiKey]), ("X-Pwinty-Merchantid", [c.merchantID])],
    Body := none }

/-- The request `prepareFormRequest` builds for `POST`, when `url.Parse`
accepts the URL. -/
def formRequest (c : Client) (url body : String) : Request :=
  { Method := "POST", URL := requestURL url,
    Header := [("X-Pwinty-Rest-Api-Key", [c.apiKey]), ("X-Pwinty-Merchantid", [c.merchantID]),
      ("Content-Type", ["application/x-www-form-urlencoded"])],
    Body := some body }

/-- What `GetOrder`, `PostOrder` and `SubmissionStatus` do with the request
once it is built: the round trip, reading the body, decoding it. -/
def roundTripOrder (c : Client) (req : Request) : Run (Option Order × Option Error) :=
  match c.httpClient req with
  | .error err => ⟨(none, some err), [req]⟩
  | .ok resp =>
    match resp.Body with
    | .error err => ⟨(none, some err), [req]⟩
    | .ok body =>
      match (UnmarshalOrder body Order.zero).2 with
      | some err => ⟨(none, some err), [req]⟩
      | none => ⟨(some (UnmarshalOrder body Order.zero).1, none), [req]⟩

/-- What `PostPhotoURL` does with the request once it is built. -/
def roundTripPhoto (c : Client) (req : Request) : Run (Option Photo × Option Error) :=
  match c.httpClient req with
  | .error err => ⟨(none, some err), [req]⟩
  | .ok resp =>
    match resp.Body with
    | .error err => ⟨(none, some err), [req]⟩
    | .ok body =>
      match (UnmarshalPhoto body Photo.zero).2 with
      | some err => ⟨(none, some err), [req]⟩
      | none => ⟨(some (UnmarshalPhoto body Photo.zero).1, none), [req]⟩

/-- What `OrderStatus` does with the request once it is built. -/
def roundTripStatus (c : Client) (req : Request) : Run (Option Error) :=
  match c.httpClient req with
  | .error err => ⟨some err, [req]⟩
  | .ok _ => ⟨none, [req]⟩

/-- A character that can follow a number made of digits only: not a digit
and not the start of a fraction or an exponent. -/
def endsNumber (c : Char) : Bool :=
  !c.isDigit && c != '.' && c != 'e' && c != 'E'

/-- Text that a JSON string literal holds as it is: no quote, no backslash,
no control character. -/
def escapeFree (l : List Char) : Bool :=
  l.all (fun c => c != '"' && c != '\\' && decide (0x20 ≤ c.toNat))

/-- The response body `{"id":n,"isValid":b,"status":"s","photos":[]}`. -/
def orderBody (n : Int) (b : Bool) (s : String) : String :=
  "\x7b\"id\":" ++ Itoa n ++ ",\"isValid\":" ++ (if b then "true" else "false") ++
    ",\"status\":\"" ++ s ++ "\",\"photos\":[]\x7d"

/-- Lower-case hexadecimal digit. -/
def lowerhex (n : Nat) : Char :=
  if n < 10 then Char.ofNat (48 + n) else Char.ofNat (87 + n)

/-- One character of text inside a JSON string literal: a quote and a
backslash are written with a backslash before them, a control character as
`\u00XX`, any other character as it is. -/
def quoteChar (c : Char) : List Char :=
  if c = '"' then ['\\', '"']
  else if c = '\\' then ['\\', '\\']
  else if c.toNat < 0x20 then
    ['\\', 'u', '0', '0', lowerhex (c.toNat / 16), lowerhex (c.toNat % 16)]
  else [c]

/-- The JSON string literal of a text. -/
def quote (s : String) : List Char :=
  '"' :: (s.data.flatMap quoteChar ++ ['"'])

/-- Join the pieces with `,`. -/
def joinComma : List (List Char) → List Char
  | [] => []
  | [p] => p
  | p :: q :: rest => p ++ ',' :: joinComma (q :: rest)

/-- The JSON array of the string literals of the messages. -/
def stringArray (msgs : List String) : List Char :=
  '[' :: (joinComma (msgs.map quote) ++ [']'])

/-- The response body `{"isValid":false,"generalErrors":msgs}`. -/
def validationBody (msgs : List String) : String :=
  String.mk ("\x7b\"isValid\":false,\"generalErrors\":".data ++ stringArray msgs ++ ['}'])

/-- The piece `scanString` reads for one character of text written by
`quoteChar`. -/
def unitOf (c : Char) : StrUnit :=
  if c.toNat < 0x20 then StrUnit.u16 c.toNat else StrUnit.chr c

/-- A `url.Parse` that accepts every URL. -/
def acceptAll : String → Option Error := fun _ => none

/-- A transport that answers every request with status 200 and the given body. -/
def cannedTransport (body : String) : HttpClient :=
  fun _ => .ok { StatusCode := 200, Body := .ok body }

/-- A transport whose round trip fails with `e`. -/
def failingTransport (e : Error) : HttpClient := fun _ => .error e

/-- A client of the sandbox endpoint. -/
def sandboxClient (t : HttpClient) : Client :=
  NewClient t "merchant-1" "key-1" EndpointSandbox none

/-! ## Request construction: auxiliary facts -/

theorem canonical_merchant : CanonicalMIMEHeaderKey "X-Pwinty-MerchantId" = "X-Pwinty-Merchantid" := by
  decide

theorem canonical_apiKey : CanonicalMIMEHeaderKey "X-Pwinty-REST-API-Key" = "X-Pwinty-Rest-Api-Key" := by
  decide

theorem canonical_contentType : CanonicalMIMEHeaderKey "Content-Type" = "Content-Type" := by
  decide

theorem prepareGetRequest_eq (Parse : String → Option Error) (c : Client) (path : String)
    (v : Values) :
    c.prepareGetRequest Parse path (some v) =
      match Parse (c.endpoint ++ path ++ "?" ++ v.Encode) with
      | some err => .error err
      | none => .ok (getRequest c (c.endpoint ++ path ++ "?" ++ v.Encode)) := by
  have hg : (if "GET" = "" then "GET" else "GET") = "GET" := by decide
  have hm : validMethod "GET" = true := by decide
  unfold Client.prepareGetRequest NewRequest
  simp only [hg, hm]
  cases h : Parse (c.endpoint ++ path ++ "?" ++ v.Encode) with
  | some err => simp [h]
  | none =>
    simp [h, Client.setAuthenticationHeaders, Header.Set, canonical_merchant, canonical_apiKey,
      getRequest]

theorem prepareFormRequest_eq (Parse : String → Option Error) (c : Client) (path : String)
    (v : Values) :
    c.prepareFormRequest Parse "POST" path v =
      match Parse (c.endpoint ++ path) with
      | some err => .error err
      | none => .ok (formRequest c (c.endpoint ++ path) v.Encode) := by
  have hg : (if "POST" = "" then "GET" else "POST") = "POST" := by decide
  have hm : validMethod "POST" = true := by decide
  unfold Client.prepareFormRequest NewRequest
  simp only [hg, hm]
  cases h : Parse (c.endpoint ++ path) with
  | some err => simp [h]
  | none =>
    simp [h, Client.setAuthenticationHeaders, Header.Set, canonical_merchant, canonical_apiKey,
      canonical_contentType, formRequest]



/-! ## Decimal digits -/

theorem digitChar_isDigit (d : Nat) (h : d < 10) : (Nat.digitChar d).isDigit = true := by
  interval_cases d <;> decide

theorem toDigitsCore_acc (fuel : Nat) : ∀ (n : Nat) (acc : List Char),
    Nat.toDigitsCore 10 fuel n acc = Nat.toDigitsCore 10 fuel n [] ++ acc := by
  induction fuel with
  | zero => intro n acc; simp [Nat.toDigitsCore]
  | succ f ih =>
    intro n acc
    simp only [Nat.toDigitsCore]
    by_cases h : n / 10 = 0
    · simp [h]
    · simp only [h, if_false]
      rw [ih (n / 10) (Nat.digitChar (n % 10) :: acc), ih (n / 10) [Nat.digitChar (n % 10)]]
      simp

theorem toDigitsCore_fuel (f1 : Nat) : ∀ (f2 n : Nat) (acc : List Char), n < f1 → n < f2 →
    Nat.toDigitsCore 10 f1 n acc = Nat.toDigitsCore 10 f2 n acc := by
  induction f1 with
  | zero => intro f2 n acc h; omega
  | succ f ih =>
    intro f2 n acc h1 h2
    cases f2 with
    | zero => omega
    | succ g =>
      simp only [Nat.toDigitsCore]
      by_cases h : n / 10 = 0
      · simp [h]
      · simp only [h, if_false]
        apply ih <;> omega

theorem toDigits_small (n : Nat) (h : n < 10) : Nat.toDigits 10 n = [Nat.digitChar n] := by
  have h0 : n / 10 = 0 := by omega
  have h1 : n % 10 = n := by omega
  simp [Nat.toDigits, Nat.toDigitsCore, h0, h1]

theorem toDigits_step (n : Nat) (h : 10 ≤ n) :
    Nat.toDigits 10 n = Nat.toDigits 10 (n / 10) ++ [Nat.digitChar (n % 10)] := by
  have h0 : ¬ n / 10 = 0 := by omega
  have e : Nat.toDigitsCore 10 (n + 1) n [] =
      Nat.toDigitsCore 10 n (n / 10) [Nat.digitChar (n % 10)] := by
    simp [Nat.toDigitsCore, h0]
  unfold Nat.toDigits
  rw [e, toDigitsCore_acc, toDigitsCore_fuel n (n / 10 + 1) (n / 10) [] (by omega) (by omega)]

theorem toDigits_isDigit (n : Nat) : ∀ c ∈ Nat.toDigits 10 n, c.isDigit = true := by
  induction n using Nat.strong_induction_on with
  | _ n ih =>
    by_cases h : n < 10
    · rw [toDigits_small n h]
      intro c hc
      simp only [List.mem_singleton] at hc
      subst hc
      exact digitChar_isDigit n h
    · rw [toDigits_step n (by omega)]
      intro c hc
      simp only [List.mem_append, List.mem_singleton] at hc
      rcases hc with hc | hc
      · exact ih (n / 10) (by omega) c hc
      · subst hc
        exact digitChar_isDigit _ (Nat.mod_lt _ (by decide))

/-! ## Query escaping of decimal text -/

theorem flatMap_escapeChar_of_unreserved (l : List Char) (h : ∀ c ∈ l, unreserved c = true) :
    l.flatMap escapeChar = l := by
  induction l with
  | nil => rfl
  | cons a l ih =>
    have ha : unreserved a = true := h a (List.mem_cons_self _ _)
    have hl : ∀ c ∈ l, unreserved c = true := fun c hc => h c (List.mem_cons_of_mem _ hc)
    simp [List.flatMap_cons, escapeChar, ha, ih hl]

theorem unreserved_of_isDigit (c : Char) (h : c.isDigit = true) : unreserved c = true := by
  simp [unreserved, Char.isAlphanum, h]

theorem Itoa_unreserved (i : Int) : ∀ c ∈ (Itoa i).data, unreserved c = true := by
  cases i with
  | ofNat m =>
    intro c hc
    exact unreserved_of_isDigit c (toDigits_isDigit m c hc)
  | negSucc m =>
    intro c hc
    simp only [Itoa, List.mem_cons] at hc
    rcases hc with hc | hc
    · subst hc; decide
    · exact unreserved_of_isDigit c (toDigits_isDigit _ c hc)

theorem QueryEscape_Itoa (i : Int) : QueryEscape (Itoa i) = Itoa i := by
  unfold QueryEscape
  rw [flatMap_escapeChar_of_unreserved _ (Itoa_unreserved i)]

theorem Encode_id (i : Int) : Values.Encode [("id", [Itoa i])] = "id=" ++ Itoa i := by
  have h : (QueryEscape "id").data = ['i', 'd'] := by decide
  simp only [Values.Encode, sortByKey, insertByKey, encodePairs, List.map, List.append_nil,
    joinAmp, QueryEscape_Itoa, h]
  apply String.ext
  simp [String.data_append]



/-! ## The requests each operation hands to the transport -/

theorem GetOrder_sent (Parse : String → Option Error) (c : Client) (id : Int) :
    (c.GetOrder Parse id).sent =
      match Parse (c.endpoint ++ "/Orders" ++ "?" ++ Values.Encode [("id", [Itoa id])]) with
      | some _ => []
      | none =>
        [getRequest c (c.endpoint ++ "/Orders" ++ "?" ++ Values.Encode [("id", [Itoa id])])] := by
  unfold Client.GetOrder
  rw [prepareGetRequest_eq]
  cases Parse (c.endpoint ++ "/Orders" ++ "?" ++ Values.Encode [("id", [Itoa id])]) with
  | some err => rfl
  | none =>
    simp only
    repeat' split
    all_goals rfl

theorem SubmissionStatus_sent (Parse : String → Option Error) (c : Client) (id : Int) :
    (c.SubmissionStatus Parse id).sent =
      match Parse (c.endpoint ++ "/Orders/SubmissionStatus" ++ "?" ++
        Values.Encode [("id", [Itoa id])]) with
      | some _ => []
      | none =>
        [getRequest c (c.endpoint ++ "/Orders/SubmissionStatus" ++ "?" ++
          Values.Encode [("id", [Itoa id])])] := by
  unfold Client.SubmissionStatus
  rw [prepareGetRequest_eq]
  cases Parse (c.endpoint ++ "/Orders/SubmissionStatus" ++ "?" ++
    Values.Encode [("id", [Itoa id])]) with
  | some err => rfl
  | none =>
    simp only
    repeat' split
    all_goals rfl

theorem PostOrder_sent (Parse : String → Option Error) (c : Client)
    (recipientName address1 address2 town state zip country : String) :
    (c.PostOrder Parse recipientName address1 address2 town state zip country).sent =
      match Parse (c.endpoint ++ "/Orders") with
      | some _ => []
      | none =>
        [formRequest c (c.endpoint ++ "/Orders")
          (Values.Encode [("recipientName", [recipientName]), ("address1", [address1]),
            ("address2", [address2]), ("addressTownOrCity", [town]),
            ("stateOrCounty", [state]), ("postalOrZipCode", [zip]),
            ("country", [country])])] := by
  unfold Client.PostOrder
  rw [prepareFormRequest_eq]
  cases Parse (c.endpoint ++ "/Orders") with
  | some err => rfl
  | none =>
    simp only
    repeat' split
    all_goals rfl

theorem OrderStatus_sent (Parse : String → Option Error) (c : Client) (id : Int)
    (status : String) :
    (c.OrderStatus Parse id status).sent =
      match Parse (c.endpoint ++ "/Orders/Status") with
      | some _ => []
      | none =>
        [formRequest c (c.endpoint ++ "/Orders/Status")
          (Values.Encode [("id", [string id]), ("status", [status])])] := by
  unfold Client.OrderStatus
  rw [prepareFormRequest_eq]
  cases Parse (c.endpoint ++ "/Orders/Status") with
  | some err => rfl
  | none =>
    simp only
    repeat' split
    all_goals rfl

theorem PostPhotoURL_sent (Parse : String → Option Error) (c : Client) (orderId : Int)
    (photoType photoUrl : String) (copies : Int) (sizing : String) :
    (c.PostPhotoURL Parse orderId photoType photoUrl copies sizing).sent =
      match Parse (c.endpoint ++ "/Photos") with
      | some _ => []
      | none =>
        [formRequest c (c.endpoint ++ "/Photos")
          (Values.Encode [("orderId", [string orderId]), ("type", [photoType]),
            ("url", [photoUrl]), ("copies", [string copies]), ("sizing", [sizing])])] := by
  unfold Client.PostPhotoURL
  rw [prepareFormRequest_eq]
  cases Parse (c.endpoint ++ "/Photos") with
  | some err => rfl
  | none =>
    simp only
    repeat' split
    all_goals rfl

/-- A request handed over by a GET operation is a `getRequest`. -/
theorem mem_GetOrder_sent {Parse : String → Option Error} {c : Client} {id : Int}
    {req : Request} (h : req ∈ (c.GetOrder Parse id).sent) :
    req = getRequest c (c.endpoint ++ "/Orders" ++ "?" ++ Values.Encode [("id", [Itoa id])]) := by
  rw [GetOrder_sent] at h
  split at h <;> simp_all

theorem mem_SubmissionStatus_sent {Parse : String → Option Error} {c : Client} {id : Int}
    {req : Request} (h : req ∈ (c.SubmissionStatus Parse id).sent) :
    req = getRequest c (c.endpoint ++ "/Orders/SubmissionStatus" ++ "?" ++
      Values.Encode [("id", [Itoa id])]) := by
  rw [SubmissionStatus_sent] at h
  split at h <;> simp_all

theorem mem_PostOrder_sent {Parse : String → Option Error} {c : Client}
    {recipientName address1 address2 town state zip country : String} {req : Request}
    (h : req ∈ (c.PostOrder Parse recipientName address1 address2 town state zip country).sent) :
    req = formRequest c (c.endpoint ++ "/Orders")
      (Values.Encode [("recipientName", [recipientName]), ("address1", [address1]),
        ("address2", [address2]), ("addressTownOrCity", [town]), ("stateOrCounty", [state]),
        ("postalOrZipCode", [zip]), ("country", [country])]) := by
  rw [PostOrder_sent] at h
  split at h <;> simp_all

theorem mem_OrderStatus_sent {Parse : String → Option Error} {c : Client} {id : Int}
    {status : String} {req : Request} (h : req ∈ (c.OrderStatus Parse id status).sent) :
    req = formRequest c (c.endpoint ++ "/Orders/Status")
      (Values.Encode [("id", [string id]), ("status", [status])]) := by
  rw [OrderStatus_sent] at h
  split at h <;> simp_all

theorem mem_PostPhotoURL_sent {Parse : String → Option Error} {c : Client} {orderId : Int}
    {photoType photoUrl : String} {copies : Int} {sizing : String} {req : Request}
    (h : req ∈ (c.PostPhotoURL Parse orderId photoType photoUrl copies sizing).sent) :
    req = formRequest c (c.endpoint ++ "/Photos")
      (Values.Encode [("orderId", [string orderId]), ("type", [photoType]),
        ("url", [photoUrl]), ("copies", [string copies]), ("sizing", [sizing])]) := by
  rw [PostPhotoURL_sent] at h
  split at h <;> simp_all

theorem getRequest_auth (c : Client) (url : String) :
    (getRequest c url).Header.Values "X-Pwinty-MerchantId" = some [c.merchantID] ∧
    (getRequest c url).Header.Values "X-Pwinty-REST-API-Key" = some [c.apiKey] ∧
    (getRequest c url).Header.Get "X-Pwinty-MerchantId" = c.merchantID ∧
    (getRequest c url).Header.Get "X-Pwinty-REST-API-Key" = c.apiKey := by
  have h1 : ("X-Pwinty-Merchantid" == "X-Pwinty-Rest-Api-Key") = false := by decide
  simp [getRequest, Header.Values, Header.Get, canonical_merchant, canonical_apiKey,
    List.lookup, h1]

theorem formRequest_auth (c : Client) (url body : String) :
    (formRequest c url body).Header.Values "X-Pwinty-MerchantId" = some [c.merchantID] ∧
    (formRequest c url body).Header.Values "X-Pwinty-REST-API-Key" = some [c.apiKey] ∧
    (formRequest c url body).Header.Get "X-Pwinty-MerchantId" = c.merchantID ∧
    (formRequest c url body).Header.Get "X-Pwinty-REST-API-Key" = c.apiKey := by
  have h1 : ("X-Pwinty-Merchantid" == "X-Pwinty-Rest-Api-Key") = false := by decide
  simp [formRequest, Header.Values, Header.Get, canonical_merchant, canonical_apiKey,
    List.lookup, h1]

theorem formRequest_contentType (c : Client) (url body : String) :
    (formRequest c url body).Header.Values "Content-Type" =
      some ["application/x-www-form-urlencoded"] ∧
    (formRequest c url body).Header.Get "Content-Type" =
      "application/x-www-form-urlencoded" := by
  have h1 : ("Content-Type" == "X-Pwinty-Rest-Api-Key") = false := by decide
  have h2 : ("Content-Type" == "X-Pwinty-Merchantid") = false := by decide
  simp [formRequest, Header.Values, Header.Get, canonical_contentType, List.lookup, h1, h2]

/-! ## An operation that sent a request went on with the round trip -/

theorem GetOrder_of_sent {Parse : String → Option Error} {c : Client} {id : Int}
    {req : Request} (h : req ∈ (c.GetOrder Parse id).sent) :
    c.GetOrder Parse id = roundTripOrder c req := by
  have hreq := mem_GetOrder_sent h
  rw [GetOrder_sent] at h
  unfold Client.GetOrder roundTripOrder
  rw [prepareGetRequest_eq, hreq]
  split at h
  · simp at h
  · rfl

theorem SubmissionStatus_of_sent {Parse : String → Option Error} {c : Client} {id : Int}
    {req : Request} (h : req ∈ (c.SubmissionStatus Parse id).sent) :
    c.SubmissionStatus Parse id = roundTripOrder c req := by
  have hreq := mem_SubmissionStatus_sent h
  rw [SubmissionStatus_sent] at h
  unfold Client.SubmissionStatus roundTripOrder
  rw [prepareGetRequest_eq, hreq]
  split at h
  · simp at h
  · rfl

theorem PostOrder_of_sent {Parse : String → Option Error} {c : Client}
    {recipientName address1 address2 town state zip country : String} {req : Request}
    (h : req ∈ (c.PostOrder Parse recipientName address1 address2 town state zip country).sent) :
    c.PostOrder Parse recipientName address1 address2 town state zip country =
      roundTripOrder c req := by
  have hreq := mem_PostOrder_sent h
  rw [PostOrder_sent] at h
  unfold Client.PostOrder roundTripOrder
  rw [prepareFormRequest_eq, hreq]
  split at h
  · simp at h
  · rfl

theorem OrderStatus_of_sent {Parse : String → Option Error} {c : Client} {id : Int}
    {status : String} {req : Request} (h : req ∈ (c.OrderStatus Parse id status).sent) :
    c.OrderStatus Parse id status = roundTripStatus c req := by
  have hreq := mem_OrderStatus_sent h
  rw [OrderStatus_sent] at h
  unfold Client.OrderStatus roundTripStatus
  rw [prepareFormRequest_eq, hreq]
  split at h
  · simp at h
  · rfl

theorem PostPhotoURL_of_sent {Parse : String → Option Error} {c : Client} {orderId : Int}
    {photoType photoUrl : String} {copies : Int} {sizing : String} {req : Request}
    (h : req ∈ (c.PostPhotoURL Parse orderId photoType photoUrl copies sizing).sent) :
    c.PostPhotoURL Parse orderId photoType photoUrl copies sizing = roundTripPhoto c req := by
  have hreq := mem_PostPhotoURL_sent h
  rw [PostPhotoURL_sent] at h
  unfold Client.PostPhotoURL roundTripPhoto
  rw [prepareFormRequest_eq, hreq]
  split at h
  · simp at h
  · rfl

theorem roundTripOrder_transport_error {c : Client} {req : Request} {e : Error}
    (h : c.httpClient req = .error e) : (roundTripOrder c req).ret = (none, some e) := by
  simp [roundTripOrder, h]

theorem roundTripPhoto_transport_error {c : Client} {req : Request} {e : Error}
    (h : c.httpClient req = .error e) : (roundTripPhoto c req).ret = (none, some e) := by
  simp [roundTripPhoto, h]

theorem roundTripOrder_invalid {c : Client} {req : Request} {resp : Response} {body : String}
    (h : c.httpClient req = .ok resp) (hb : resp.Body = .ok body)
    (hj : parseJSON body = none) :
    (roundTripOrder c req).ret = (none, some Error.invalidJSON) := by
  simp [roundTripOrder, h, hb, UnmarshalOrder, hj]

theorem roundTripPhoto_invalid {c : Client} {req : Request} {resp : Response} {body : String}
    (h : c.httpClient req = .ok resp) (hb : resp.Body = .ok body)
    (hj : parseJSON body = none) :
    (roundTripPhoto c req).ret = (none, some Error.invalidJSON) := by
  simp [roundTripPhoto, h, hb, UnmarshalPhoto, hj]

theorem roundTripOrder_decoded {c : Client} {req : Request} {resp : Response} {body : String}
    {v : JSON} {o : Order}
    (h : c.httpClient req = .ok resp) (hb : resp.Body = .ok body)
    (hj : parseJSON body = some v) (hd : decodeOrder v Order.zero = (o, false)) :
    (roundTripOrder c req).ret = (some o, none) := by
  simp [roundTripOrder, h, hb, UnmarshalOrder, hj, hd]

/-! ## Reading decimal text back -/

theorem digitChar_toNat (d : Nat) (h : d < 10) : (Nat.digitChar d).toNat - 48 = d := by
  interval_cases d <;> decide

theorem digitChar_ne_zero (d : Nat) (h1 : 1 ≤ d) (h2 : d < 10) : Nat.digitChar d ≠ '0' := by
  interval_cases d <;> decide

theorem digitsValue_append (l : List Char) (c : Char) :
    digitsValue (l ++ [c]) = 10 * digitsValue l + (c.toNat - 48) := by
  simp [digitsValue, List.foldl_append]

theorem digitsValue_toDigits (n : Nat) : digitsValue (Nat.toDigits 10 n) = n := by
  induction n using Nat.strong_induction_on with
  | _ n ih =>
    by_cases h : n < 10
    · rw [toDigits_small n h]
      simp [digitsValue, digitChar_toNat n h]
    · rw [toDigits_step n (by omega), digitsValue_append, ih (n / 10) (by omega),
        digitChar_toNat _ (Nat.mod_lt _ (by decide))]
      omega

/-- The decimal digits of a positive number start with a digit other than `0`. -/
theorem toDigits_head (n : Nat) (hn : 0 < n) :
    ∃ d t, Nat.toDigits 10 n = Nat.digitChar d :: t ∧ 1 ≤ d ∧ d < 10 := by
  induction n using Nat.strong_induction_on with
  | _ n ih =>
    by_cases h : n < 10
    · exact ⟨n, [], toDigits_small n h, hn, h⟩
    · obtain ⟨d, t, ht, h1, h2⟩ := ih (n / 10) (by omega) (by omega)
      refine ⟨d, t ++ [Nat.digitChar (n % 10)], ?_, h1, h2⟩
      rw [toDigits_step n (by omega), ht]
      rfl

theorem takeDigits_append (ds : List Char) (c : Char) (rest : List Char)
    (hds : ∀ x ∈ ds, x.isDigit = true) (hc : c.isDigit = false) :
    takeDigits (ds ++ c :: rest) = (ds, c :: rest) := by
  induction ds with
  | nil => simp [takeDigits, hc]
  | cons a ds ih =>
    have ha : a.isDigit = true := hds a (List.mem_cons_self _ _)
    have hr := ih (fun x hx => hds x (List.mem_cons_of_mem _ hx))
    simp [takeDigits, ha, hr]

theorem scanFrac_scanExp_end (c : Char) (rest : List Char) (hc : endsNumber c = true) :
    scanFrac (c :: rest) = some ([], c :: rest) ∧ scanExp (c :: rest) = some ([], c :: rest) := by
  simp only [endsNumber, Bool.and_eq_true, Bool.not_eq_true', bne_iff_ne, ne_eq] at hc
  obtain ⟨⟨⟨_, h1⟩, h2⟩, h3⟩ := hc
  simp [scanFrac, scanExp, h1, h2, h3]

theorem scanInt_toDigits (n : Nat) (c : Char) (rest : List Char) (hc : endsNumber c = true) :
    scanInt (Nat.toDigits 10 n ++ c :: rest) = some (Nat.toDigits 10 n, c :: rest) := by
  have hcd : c.isDigit = false := by
    simp only [endsNumber, Bool.and_eq_true, Bool.not_eq_true'] at hc
    exact hc.1.1.1
  rcases Nat.eq_zero_or_pos n with h0 | hpos
  · subst h0
    simp [toDigits_small 0 (by decide), scanInt, Nat.digitChar]
  · obtain ⟨d, t, ht, h1, h2⟩ := toDigits_head n hpos
    have hall := toDigits_isDigit n
    rw [ht] at hall ⊢
    have hd : (Nat.digitChar d).isDigit = true := hall _ (List.mem_cons_self _ _)
    have htake := takeDigits_append t c rest
      (fun x hx => hall x (List.mem_cons_of_mem _ hx)) hcd
    simp [scanInt, digitChar_ne_zero d h1 h2, hd, htake]

theorem scanNumber_Itoa (i : Int) (c : Char) (rest : List Char) (hc : endsNumber c = true) :
    scanNumber ((Itoa i).data ++ c :: rest) = some ((Itoa i).data, c :: rest) := by
  obtain ⟨hf, he⟩ := scanFrac_scanExp_end c rest hc
  cases i with
  | ofNat m =>
    have hne : ∀ d t, Nat.toDigits 10 m = d :: t → d ≠ '-' := by
      intro d t h heq
      have := toDigits_isDigit m d (by rw [h]; exact List.mem_cons_self _ _)
      rw [heq] at this
      exact absurd this (by decide)
    simp only [Itoa]
    cases hd : Nat.toDigits 10 m with
    | nil =>
      have := scanInt_toDigits m c rest hc
      rcases Nat.eq_zero_or_pos m with h0 | hpos
      · subst h0; simp [toDigits_small 0 (by decide)] at hd
      · obtain ⟨d, t, ht, _⟩ := toDigits_head m hpos
        rw [ht] at hd; simp at hd
    | cons d t =>
      have hs := scanInt_toDigits m c rest hc
      rw [hd] at hs
      simp only [List.cons_append] at hs
      simp only [scanNumber, List.cons_append, hne d t hd, if_false, hs, hf, he]
      simp
  | negSucc m =>
    have hs := scanInt_toDigits (m + 1) c rest hc
    simp only [Itoa, scanNumber, List.cons_append, if_true, hs, hf, he]
    simp

theorem ParseInt_Itoa (i : Int) (h1 : -2 ^ 63 ≤ i) (h2 : i < 2 ^ 63) :
    ParseInt (Itoa i).data = some i := by
  cases i with
  | ofNat m =>
    have hall := toDigits_isDigit m
    have hv := digitsValue_toDigits m
    have hm : m < 2 ^ 63 := by
      have : (m : Int) < 2 ^ 63 := h2
      exact_mod_cast this
    simp only [Itoa]
    cases hd : Nat.toDigits 10 m with
    | nil =>
      rcases Nat.eq_zero_or_pos m with h0 | hpos
      · subst h0; simp [toDigits_small 0 (by decide)] at hd
      · obtain ⟨d, t, ht, _⟩ := toDigits_head m hpos
        rw [ht] at hd; simp at hd
    | cons d t =>
      rw [hd] at hall hv
      have hne : d ≠ '-' := by
        intro heq
        have := hall d (List.mem_cons_self _ _)
        rw [heq] at this
        exact absurd this (by decide)
      have hall2 : (d :: t).all Char.isDigit = true := by
        simpa [List.all_eq_true] using hall
      simp only [ParseInt, hne, if_false, hall2, hv, Bool.true_and, decide_eq_true_eq, hm,
        if_true]
      rfl
  | negSucc m =>
    have hall := toDigits_isDigit (m + 1)
    have hv := digitsValue_toDigits (m + 1)
    have hm : m + 1 ≤ 2 ^ 63 := by
      have : -(2 : Int) ^ 63 ≤ Int.negSucc m := h1
      rw [Int.negSucc_eq] at this
      have h3 : ((m : Int) + 1) ≤ 2 ^ 63 := by linarith
      exact_mod_cast h3
    obtain ⟨d, t, ht, _⟩ := toDigits_head (m + 1) (by omega)
    have hall2 : (Nat.toDigits 10 (m + 1)).all Char.isDigit = true := by
      simpa [List.all_eq_true] using hall
    have hemp : (Nat.toDigits 10 (m + 1)).isEmpty = false := by rw [ht]; rfl
    simp only [Itoa, ParseInt, if_true, hemp, Bool.not_false, hall2, hv, Bool.true_and,
      decide_eq_true_eq, hm]
    rw [Int.negSucc_eq]
    push_cast
    rfl

/-! ## Reading the pieces of a JSON text -/

theorem skipWS_cons (c : Char) (cs : List Char) (h : isSpace c = false) :
    skipWS (c :: cs) = c :: cs := by
  simp [skipWS, h]

/-- One step of `scanString` on a character that is written literally. -/
theorem scanString_literal (a : Char) (rest : List Char) (h1 : a ≠ '"') (h2 : a ≠ '\\')
    (h3 : 32 ≤ a.toNat) :
    scanString (a :: rest) =
      match scanString rest with
      | none => none
      | some (us, r) => some (StrUnit.chr a :: us, r) := by
  have h5 : ¬ a.toNat < 32 := by omega
  rw [scanString.eq_def]
  simp [h1, h2, h5]

theorem scanString_quote (rest : List Char) : scanString ('"' :: rest) = some ([], rest) := by
  rw [scanString.eq_def]
  simp

theorem scanString_plain (l rest : List Char) (h : escapeFree l = true) :
    scanString (l ++ '"' :: rest) = some (l.map StrUnit.chr, rest) := by
  induction l with
  | nil => exact scanString_quote rest
  | cons a l ih =>
    simp only [escapeFree, List.all_cons, Bool.and_eq_true, bne_iff_ne, ne_eq,
      decide_eq_true_eq] at h
    obtain ⟨⟨⟨h1, h2⟩, h3⟩, h4⟩ := h
    rw [List.cons_append, scanString_literal a _ h1 h2 h3, ih h4]
    rfl

theorem decodeUnits_chr (l : List Char) : decodeUnits (l.map StrUnit.chr) = l := by
  induction l with
  | nil => rfl
  | cons a l ih => simp [decodeUnits, ih]

/-- Decimal text starts with a digit or a minus sign. -/
theorem Itoa_head (i : Int) :
    ∃ h t, (Itoa i).data = h :: t ∧ (h.isDigit = true ∨ h = '-') := by
  cases i with
  | ofNat m =>
    rcases Nat.eq_zero_or_pos m with h0 | hpos
    · subst h0
      exact ⟨'0', [], by simp [Itoa, toDigits_small 0 (by decide), Nat.digitChar],
        Or.inl (by decide)⟩
    · obtain ⟨d, t, ht, h1, h2⟩ := toDigits_head m hpos
      exact ⟨Nat.digitChar d, t, by simp [Itoa, ht], Or.inl (digitChar_isDigit d h2)⟩
  | negSucc m => exact ⟨'-', _, rfl, Or.inr rfl⟩

theorem skipWS_Itoa (i : Int) (rest : List Char) :
    skipWS ((Itoa i).data ++ rest) = (Itoa i).data ++ rest := by
  obtain ⟨h, t, ht, hh⟩ := Itoa_head i
  rw [ht]
  apply skipWS_cons
  rcases hh with hd | hd
  · cases hsp : isSpace h with
    | false => rfl
    | true =>
      simp only [isSpace, Bool.or_eq_true, beq_iff_eq] at hsp
      rcases hsp with ((hsp | hsp) | hsp) | hsp <;>
        (rw [hsp] at hd; exact absurd hd (by decide))
  · subst hd; decide

theorem skipWS_bool (b : Bool) (rest : List Char) :
    skipWS ((if b then "true" else "false").data ++ rest) =
      (if b then "true" else "false").data ++ rest := by
  cases b
  · exact skipWS_cons 'f' _ (by decide)
  · exact skipWS_cons 't' _ (by decide)

theorem parseValue_number (f : Nat) (i : Int) (c : Char) (rest : List Char)
    (hc : endsNumber c = true) :
    parseValue (f + 1) ((Itoa i).data ++ c :: rest) =
      some (JSON.num (Itoa i).data, c :: rest) := by
  have hs := scanNumber_Itoa i c rest hc
  obtain ⟨h, t, ht, hh⟩ := Itoa_head i
  rw [ht] at hs ⊢
  simp only [List.cons_append] at hs ⊢
  have hne : h ≠ '{' ∧ h ≠ '[' ∧ h ≠ '"' ∧ h ≠ 't' ∧ h ≠ 'f' ∧ h ≠ 'n' := by
    rcases hh with hd | hd
    · refine ⟨?_, ?_, ?_, ?_, ?_, ?_⟩ <;>
        (intro heq; rw [heq] at hd; exact absurd hd (by decide))
    · subst hd; decide
  obtain ⟨n1, n2, n3, n4, n5, n6⟩ := hne
  simp only [parseValue, n1, n2, n3, n4, n5, n6, if_false, hs]

theorem parseValue_bool (f : Nat) (b : Bool) (rest : List Char) :
    parseValue (f + 1) ((if b then "true" else "false").data ++ rest) =
      some (JSON.bool b, rest) := by
  cases b
  · have : "false".data = ['f', 'a', 'l', 's', 'e'] := rfl
    simp [this, parseValue, expectWord]
  · have : "true".data = ['t', 'r', 'u', 'e'] := rfl
    simp [this, parseValue, expectWord]

theorem parseValue_string (f : Nat) (s : String) (rest : List Char)
    (hs : escapeFree s.data = true) :
    parseValue (f + 1) ('"' :: (s.data ++ '"' :: rest)) = some (JSON.str s, rest) := by
  simp [parseValue, scanString_plain s.data rest hs, decodeUnits_chr]

theorem parseValue_emptyArray (f : Nat) (rest : List Char) :
    parseValue (f + 1) ('[' :: ']' :: rest) = some (JSON.arr [], rest) := by
  simp [parseValue, skipWS, isSpace]

theorem parseMembers_more (pv : List Char → Option (JSON × List Char)) (n : Nat)
    (key : String) (vs : List Char) (v : JSON) (r4 : List Char)
    (hk : escapeFree key.data = true) (hws : skipWS vs = vs)
    (hv : pv vs = some (v, ',' :: r4)) :
    parseMembers pv (n + 1) ('"' :: (key.data ++ '"' :: ':' :: vs)) =
      match parseMembers pv n (skipWS r4) with
      | none => none
      | some (ms, r) => some ((key, v) :: ms, r) := by
  simp [parseMembers, scanString_plain key.data _ hk, decodeUnits_chr, skipWS, isSpace, hws, hv]

theorem parseMembers_last (pv : List Char → Option (JSON × List Char)) (n : Nat)
    (key : String) (vs : List Char) (v : JSON) (r4 : List Char)
    (hk : escapeFree key.data = true) (hws : skipWS vs = vs)
    (hv : pv vs = some (v, '}' :: r4)) :
    parseMembers pv (n + 1) ('"' :: (key.data ++ '"' :: ':' :: vs)) =
      some ([(key, v)], r4) := by
  simp [parseMembers, scanString_plain key.data _ hk, decodeUnits_chr, skipWS, isSpace, hws, hv]

theorem parseValue_object (f : Nat) (rest : List Char) (ms : List (String × JSON))
    (r : List Char) (h : parseMembers (parseValue f) f ('"' :: rest) = some (ms, r)) :
    parseValue (f + 1) ('{' :: '"' :: rest) = some (JSON.obj ms, r) := by
  simp [parseValue, skipWS_cons '"' rest (by decide), h]

/-! ## The body of C6 -/

theorem orderBody_data (n : Int) (b : Bool) (s : String) :
    (orderBody n b s).data =
      '{' :: '"' :: ("id".data ++ '"' :: ':' :: ((Itoa n).data ++ ',' :: '"' ::
        ("isValid".data ++ '"' :: ':' :: ((if b then "true" else "false").data ++ ',' :: '"' ::
          ("status".data ++ '"' :: ':' :: '"' :: (s.data ++ '"' :: ',' :: '"' ::
            ("photos".data ++ '"' :: ':' :: '[' :: ']' :: '}' :: []))))))) := by
  simp only [orderBody, String.data_append]
  cases b <;> simp

theorem parseJSON_orderBody (n : Int) (b : Bool) (s : String) (hs : escapeFree s.data = true) :
    parseJSON (orderBody n b s) =
      some (JSON.obj [("id", JSON.num (Itoa n).data), ("isValid", JSON.bool b),
        ("status", JSON.str s), ("photos", JSON.arr [])]) := by
  have h4 : 4 ≤ (orderBody n b s).data.length := by
    rw [orderBody_data]
    simp only [List.length_cons, List.length_append]
    omega
  obtain ⟨k, hk⟩ : ∃ k, (orderBody n b s).data.length = k + 4 :=
    ⟨(orderBody n b s).data.length - 4, by omega⟩
  have hphotos : parseValue (k + 4) ('[' :: ']' :: '}' :: []) = some (JSON.arr [], '}' :: []) :=
    parseValue_emptyArray (k + 3) _
  have m4 := parseMembers_last (parseValue (k + 4)) k "photos" _ _ _ (by decide)
    (skipWS_cons '[' _ (by decide)) hphotos
  have hstatus := parseValue_string (k + 3) s
    (',' :: '"' :: ("photos".data ++ '"' :: ':' :: '[' :: ']' :: '}' :: [])) hs
  have m3 := parseMembers_more (parseValue (k + 4)) (k + 1) "status" _ _ _ (by decide)
    (skipWS_cons '"' _ (by decide)) hstatus
  rw [skipWS_cons '"' _ (by decide), m4] at m3
  have hvalid := parseValue_bool (k + 3) b
    (',' :: '"' :: ("status".data ++ '"' :: ':' :: '"' :: (s.data ++ '"' :: ',' :: '"' ::
      ("photos".data ++ '"' :: ':' :: '[' :: ']' :: '}' :: []))))
  have m2 := parseMembers_more (parseValue (k + 4)) (k + 2) "isValid" _ _ _ (by decide)
    (skipWS_bool b _) hvalid
  rw [skipWS_cons '"' _ (by decide), m3] at m2
  have hid := parseValue_number (k + 3) n ','
    ('"' :: ("isValid".data ++ '"' :: ':' :: ((if b then "true" else "false").data ++
      ',' :: '"' :: ("status".data ++ '"' :: ':' :: '"' :: (s.data ++ '"' :: ',' :: '"' ::
        ("photos".data ++ '"' :: ':' :: '[' :: ']' :: '}' :: [])))))) (by decide)
  have m1 := parseMembers_more (parseValue (k + 4)) (k + 3) "id" _ _ _ (by decide)
    (skipWS_Itoa n _) hid
  rw [skipWS_cons '"' _ (by decide), m2] at m1
  have hobj := parseValue_object (k + 4) _ _ _ m1
  unfold parseJSON
  rw [hk, orderBody_data, skipWS_cons '{' _ (by decide), hobj]
  rfl

theorem decodeOrder_orderBody (n : Int) (b : Bool) (s : String)
    (h1 : -2 ^ 63 ≤ n) (h2 : n < 2 ^ 63) :
    decodeOrder (JSON.obj [("id", JSON.num (Itoa n).data), ("isValid", JSON.bool b),
        ("status", JSON.str s), ("photos", JSON.arr [])]) Order.zero =
      ({ Order.zero with ID := n, IsValid := b, Status := s, Photos := some [] }, false) := by
  simp +decide [decodeOrder, Order.setField, decInt, ParseInt_Itoa n h1 h2, decBool, decString,
    decSlice, decElems, Order.zero]

/-! ## The body of C7: string literals with escapes, arrays of them -/

theorem hex4_lowerhex (k : Nat) (hk : k < 32) :
    hex4 '0' '0' (lowerhex (k / 16)) (lowerhex (k % 16)) = some k := by
  interval_cases k <;> rfl

theorem scanString_quoteChar (c : Char) (rest : List Char) :
    scanString (quoteChar c ++ rest) =
      match scanString rest with
      | none => none
      | some (us, r) => some (unitOf c :: us, r) := by
  by_cases h1 : c = '"'
  · subst h1
    rw [scanString.eq_def]
    simp [quoteChar, unescape, unitOf]
  · by_cases h2 : c = '\\'
    · subst h2
      rw [scanString.eq_def]
      simp [quoteChar, unescape, unitOf]
    · by_cases h3 : c.toNat < 32
      · rw [scanString.eq_def]
        simp [quoteChar, h1, h2, h3, unitOf, hex4_lowerhex c.toNat h3]
      · simp only [quoteChar, h1, h2, h3, if_false, unitOf, List.singleton_append]
        exact scanString_literal c rest h1 h2 (by omega)

theorem scanString_quoted (l rest : List Char) :
    scanString (l.flatMap quoteChar ++ '"' :: rest) = some (l.map unitOf, rest) := by
  induction l with
  | nil => exact scanString_quote rest
  | cons a l ih =>
    rw [List.flatMap_cons, List.append_assoc, scanString_quoteChar, ih]
    rfl

theorem decodeUnits_u16 (k : Nat) (us : List StrUnit) (hk : k < 0xD800) :
    decodeUnits (StrUnit.u16 k :: us) = Char.ofNat k :: decodeUnits us := by
  have hl : loneUnit k = Char.ofNat k := by
    have : ¬ (0xD800 ≤ k ∧ k < 0xE000) := by omega
    simp [loneUnit, this]
  have hp : ∀ lo, ¬ (0xD800 ≤ k ∧ k < 0xDC00 ∧ 0xDC00 ≤ lo ∧ lo < 0xE000) := by
    intro lo; omega
  cases us with
  | nil => simp [decodeUnits, hl]
  | cons u us =>
    cases u with
    | chr c => simp [decodeUnits, hl]
    | u16 lo => simp [decodeUnits, hl, hp lo]

theorem decodeUnits_unitOf (l : List Char) : decodeUnits (l.map unitOf) = l := by
  induction l with
  | nil => rfl
  | cons a l ih =>
    by_cases h : a.toNat < 32
    · simp only [List.map_cons, unitOf, h, if_true]
      rw [decodeUnits_u16 _ _ (by omega), ih]
      simp [Char.ofNat_toNat]
    · simp only [List.map_cons, unitOf, h, if_false]
      simp [decodeUnits, ih]

theorem parseValue_quote (f : Nat) (s : String) (rest : List Char) :
    parseValue (f + 1) (quote s ++ rest) = some (JSON.str s, rest) := by
  simp [parseValue, quote, scanString_quoted, decodeUnits_unitOf]

theorem skipWS_quote (s : String) (rest : List Char) :
    skipWS (quote s ++ rest) = quote s ++ rest :=
  skipWS_cons '"' _ (by decide)

theorem parseElems_last (pv : List Char → Option (JSON × List Char)) (n : Nat)
    (vs : List Char) (v : JSON) (r : List Char) (hws : skipWS vs = vs)
    (hv : pv vs = some (v, ']' :: r)) :
    parseElems pv (n + 1) vs = some ([v], r) := by
  simp [parseElems, hws, hv, skipWS, isSpace]

theorem parseElems_more (pv : List Char → Option (JSON × List Char)) (n : Nat)
    (vs : List Char) (v : JSON) (r : List Char) (hws : skipWS vs = vs)
    (hv : pv vs = some (v, ',' :: r)) :
    parseElems pv (n + 1) vs =
      match parseElems pv n r with
      | none => none
      | some (us, r1) => some (v :: us, r1) := by
  simp [parseElems, hws, hv, skipWS, isSpace]

theorem parseElems_quotes (f : Nat) (msgs : List String) (m : String) (rest : List Char) :
    ∀ n, msgs.length < n →
      parseElems (parseValue (f + 1)) n (joinComma ((m :: msgs).map quote) ++ ']' :: rest) =
        some ((m :: msgs).map JSON.str, rest) := by
  induction msgs generalizing m with
  | nil =>
    intro n hn
    obtain ⟨n, rfl⟩ : ∃ k, n = k + 1 := ⟨n - 1, by simp at hn; omega⟩
    exact parseElems_last _ n _ _ _ (skipWS_quote m _) (parseValue_quote f m _)
  | cons m2 msgs ih =>
    intro n hn
    obtain ⟨n, rfl⟩ : ∃ k, n = k + 1 := ⟨n - 1, by simp at hn; omega⟩
    have hrec := ih m2 n (by simp at hn ⊢; omega)
    have hshape : joinComma ((m :: m2 :: msgs).map quote) ++ ']' :: rest =
        quote m ++ ',' :: (joinComma ((m2 :: msgs).map quote) ++ ']' :: rest) := by
      simp [joinComma]
    rw [hshape, parseElems_more _ n _ _ _ (skipWS_quote m _) (parseValue_quote f m _), hrec]
    rfl

theorem length_le_joinComma (msgs : List String) :
    msgs.length ≤ (joinComma (msgs.map quote)).length := by
  induction msgs with
  | nil => simp
  | cons m msgs ih =>
    cases msgs with
    | nil => simp [joinComma, quote]
    | cons m2 msgs =>
      simp only [List.map_cons, joinComma, List.length_append, List.length_cons] at ih ⊢
      omega

theorem parseValue_array (f : Nat) (d : Char) (rest : List Char) (vs : List JSON)
    (r : List Char) (hd : isSpace d = false) (hne : d ≠ ']')
    (h : parseElems (parseValue f) f (d :: rest) = some (vs, r)) :
    parseValue (f + 1) ('[' :: d :: rest) = some (JSON.arr vs, r) := by
  simp [parseValue, skipWS_cons d rest hd, hne, h]

theorem parseValue_stringArray (f : Nat) (msgs : List String) (rest : List Char)
    (hf : msgs.length ≤ f) :
    parseValue (f + 2) (stringArray msgs ++ rest) = some (JSON.arr (msgs.map JSON.str), rest) := by
  cases msgs with
  | nil => exact parseValue_emptyArray (f + 1) rest
  | cons m msgs =>
    have he := parseElems_quotes f msgs m rest (f + 1) (by simp at hf; omega)
    have hq : ∃ t, joinComma ((m :: msgs).map quote) ++ ']' :: rest = '"' :: t := by
      cases msgs with
      | nil => exact ⟨_, rfl⟩
      | cons m2 msgs => exact ⟨_, rfl⟩
    obtain ⟨t, ht⟩ := hq
    rw [ht] at he
    have hs : stringArray (m :: msgs) ++ rest = '[' :: '"' :: t := by
      simp [stringArray, ← ht]
    rw [hs]
    exact parseValue_array (f + 1) '"' t _ _ (by decide) (by decide) he

theorem decElems_strings (msgs cur : List String) :
    decElems decString "" (msgs.map JSON.str) cur = (msgs, false) := by
  induction msgs generalizing cur with
  | nil => rfl
  | cons m msgs ih => simp [decElems, decString, ih]

theorem validationBody_data (msgs : List String) :
    (validationBody msgs).data =
      '{' :: '"' :: ("isValid".data ++ '"' :: ':' :: ((if false then "true" else "false").data ++
        ',' :: '"' :: ("generalErrors".data ++ '"' :: ':' :: (stringArray msgs ++ '}' :: [])))) := by
  simp [validationBody]

theorem parseJSON_validationBody (msgs : List String) :
    parseJSON (validationBody msgs) =
      some (JSON.obj [("isValid", JSON.bool false),
        ("generalErrors", JSON.arr (msgs.map JSON.str))]) := by
  have h4 : msgs.length + 4 ≤ (validationBody msgs).data.length := by
    have := length_le_joinComma msgs
    rw [validationBody_data]
    simp only [List.length_cons, List.length_append, stringArray]
    omega
  obtain ⟨k, hk⟩ : ∃ k, (validationBody msgs).data.length = k + 4 :=
    ⟨(validationBody msgs).data.length - 4, by omega⟩
  have harr : parseValue (k + 4) (stringArray msgs ++ '}' :: []) =
      some (JSON.arr (msgs.map JSON.str), '}' :: []) :=
    parseValue_stringArray (k + 2) msgs _ (by omega)
  have hws : skipWS (stringArray msgs ++ '}' :: []) = stringArray msgs ++ '}' :: [] :=
    skipWS_cons '[' _ (by decide)
  have m2 := parseMembers_last (parseValue (k + 4)) (k + 2) "generalErrors"
    (stringArray msgs ++ '}' :: []) _ _ (by decide) hws harr
  have hvalid := parseValue_bool (k + 3) false
    (',' :: '"' :: ("generalErrors".data ++ '"' :: ':' :: (stringArray msgs ++ '}' :: [])))
  have m1 := parseMembers_more (parseValue (k + 4)) (k + 3) "isValid" _ _ _ (by decide)
    (skipWS_bool false _) hvalid
  rw [skipWS_cons '"' _ (by decide), m2] at m1
  have hobj := parseValue_object (k + 4) _ _ _ m1
  unfold parseJSON
  rw [hk, validationBody_data, skipWS_cons '{' _ (by decide), hobj]
  rfl

theorem decodeOrder_validationBody (msgs : List String) :
    decodeOrder (JSON.obj [("isValid", JSON.bool false),
        ("generalErrors", JSON.arr (msgs.map JSON.str))]) Order.zero =
      ({ Order.zero with IsValid := false, GeneralErrors := some msgs }, false) := by
  simp +decide [decodeOrder, Order.setField, decBool, decSlice, decElems_strings, Order.zero]

/-! ## The conversion `string(int)` against the decimal text -/

theorem toDigits_length_pos (n : Nat) : 1 ≤ (Nat.toDigits 10 n).length := by
  rcases Nat.eq_zero_or_pos n with h0 | hpos
  · subst h0; simp [toDigits_small 0 (by decide)]
  · obtain ⟨d, t, ht, _⟩ := toDigits_head n hpos
    rw [ht]; simp

theorem toDigits_length_two (n : Nat) (h : 10 ≤ n) : 2 ≤ (Nat.toDigits 10 n).length := by
  have := toDigits_length_pos (n / 10)
  rw [toDigits_step n h, List.length_append]
  simp only [List.length_singleton]
  omega

/-- The conversion `string(i)` never gives the decimal text of `i`. -/
theorem string_ne_Itoa (i : Int) : string i ≠ Itoa i := by
  intro h
  have hlen : (string i).data.length = 1 := by
    unfold string
    split <;> rfl
  rw [h] at hlen
  cases i with
  | ofNat m =>
    by_cases hm : m < 10
    · interval_cases m <;> exact absurd h (by decide)
    · have := toDigits_length_two m (by omega)
      simp only [Itoa] at hlen
      omega
  | negSucc m =>
    have := toDigits_length_pos (m + 1)
    simp only [Itoa, List.length_cons] at hlen
    omega

/-! ## The URL of a text with a query appended -/

theorem cut_of_not_mem (sep : Char) (l : List Char) (h : sep ∉ l) : cut sep l = (l, []) := by
  induction l with
  | nil => rfl
  | cons a l ih =>
    have ha : a ≠ sep := fun e => h (e ▸ List.mem_cons_self _ _)
    have hl : sep ∉ l := fun m => h (List.mem_cons_of_mem _ m)
    simp [cut, ha, ih hl]

theorem cut_append (sep : Char) (a b : List Char) (h : sep ∉ a) :
    cut sep (a ++ sep :: b) = (a, b) := by
  induction a with
  | nil => simp [cut]
  | cons x a ih =>
    have hx : x ≠ sep := fun e => h (e ▸ List.mem_cons_self _ _)
    have ha : sep ∉ a := fun m => h (List.mem_cons_of_mem _ m)
    simp [cut, hx, ih ha]

theorem getSchemeLoop_append_query (t q : List Char) : ∀ first : Bool,
    getSchemeLoop first (t ++ '?' :: q) =
      match getSchemeLoop first t with
      | none => none
      | some (s, r) => some (s, r ++ '?' :: q) := by
  induction t with
  | nil =>
    intro first
    have h1 : ('?' : Char).isAlpha = false := by decide
    have h2 : (('?' : Char).isDigit || '?' == '+' || '?' == '-' || '?' == '.') = false := by
      decide
    have h3 : (('?' : Char) == ':') = false := by decide
    simp [getSchemeLoop, h1, h2, h3]
  | cons a t ih =>
    intro first
    show getSchemeLoop first (a :: (t ++ '?' :: q)) = _
    simp only [getSchemeLoop]
    rw [ih false]
    by_cases ha : a.isAlpha = true
    · simp only [ha, if_true]
      cases getSchemeLoop false t with
      | none => rfl
      | some p => rfl
    · simp only [ha]
      by_cases hd : (a.isDigit || a == '+' || a == '-' || a == '.') = true
      · simp only [hd, if_true]
        cases first with
        | true => rfl
        | false =>
          simp only [Bool.false_eq_true, if_false]
          cases getSchemeLoop false t with
          | none => rfl
          | some p => rfl
      · simp only [hd]
        by_cases hc : (a == ':') = true
        · simp only [hc, if_true]
          cases first <;> rfl
        · simp only [hc]
          rfl

theorem getScheme_append_query (t q : List Char) :
    getScheme (t ++ '?' :: q) = ((getScheme t).1, (getScheme t).2 ++ '?' :: q) := by
  unfold getScheme
  rw [getSchemeLoop_append_query]
  cases getSchemeLoop true t with
  | none => rfl
  | some p => rfl

theorem getSchemeLoop_rest_subset (t : List Char) : ∀ (first : Bool) (s r : List Char),
    getSchemeLoop first t = some (s, r) → ∀ c ∈ r, c ∈ t := by
  induction t with
  | nil => intro first s r h; simp [getSchemeLoop] at h
  | cons a t ih =>
    intro first s r h c hc
    simp only [getSchemeLoop] at h
    split at h
    · cases hl : getSchemeLoop false t with
      | none => rw [hl] at h; simp at h
      | some p =>
        rw [hl] at h
        simp only [Option.some.injEq, Prod.mk.injEq] at h
        exact List.mem_cons_of_mem _ (ih false p.1 p.2 hl c (h.2 ▸ hc))
    · split at h
      · split at h
        · simp at h
        · cases hl : getSchemeLoop false t with
          | none => rw [hl] at h; simp at h
          | some p =>
            rw [hl] at h
            simp only [Option.some.injEq, Prod.mk.injEq] at h
            exact List.mem_cons_of_mem _ (ih false p.1 p.2 hl c (h.2 ▸ hc))
      · split at h
        · split at h
          · simp at h
          · simp only [Option.some.injEq, Prod.mk.injEq] at h
            exact List.mem_cons_of_mem _ (h.2 ▸ hc)
        · simp at h

theorem getScheme_rest_subset (t : List Char) : ∀ c ∈ (getScheme t).2, c ∈ t := by
  unfold getScheme
  cases h : getSchemeLoop true t with
  | none => intro c hc; exact hc
  | some p => exact getSchemeLoop_rest_subset t true p.1 p.2 h

theorem urlOf_query (scheme rest : List Char) (force : Bool) (query frag : List Char) :
    urlOf scheme rest force query frag =
      { urlOf scheme rest force [] frag with RawQuery := String.mk query } := by
  unfold urlOf
  split
  · rfl
  · split <;> rfl

theorem urlOf_fields (scheme rest : List Char) (force : Bool) (query frag : List Char) :
    (urlOf scheme rest force query frag).RawQuery = String.mk query ∧
    (urlOf scheme rest force query frag).FragmentText = String.mk frag ∧
    (urlOf scheme rest force query frag).ForceQuery = force := by
  unfold urlOf
  split
  · exact ⟨rfl, rfl, rfl⟩
  · split <;> exact ⟨rfl, rfl, rfl⟩

/-- The URL of a text without `#` and `?`, and of the text with `?` and a
query `q` after it. -/
theorem urlParse_append_query (t : String) (q : List Char) (hsharp : '#' ∉ t.data)
    (hquest : '?' ∉ t.data) (hq : '#' ∉ q) (hlast : ∀ c ∈ q.getLast?, c ≠ '?')
    (hne : q ≠ []) :
    urlParse (String.mk (t.data ++ '?' :: q)) =
      { urlParse t with RawQuery := String.mk q } ∧
    (urlParse t).RawQuery = "" ∧ (urlParse t).FragmentText = "" ∧
    (urlParse t).ForceQuery = false := by
  have hrest : '?' ∉ (getScheme t.data).2 := fun m => hquest (getScheme_rest_subset _ _ m)
  have h0 : ¬ ((getScheme t.data).2.getLast? = some '?' ∧
      (getScheme t.data).2.count '?' = 1) := by
    intro h
    exact hrest (List.mem_of_getLast?_eq_some h.1)
  have hsharp1 : '#' ∉ t.data ++ '?' :: q := by
    simp only [List.mem_append, List.mem_cons, not_or]
    exact ⟨hsharp, by decide, hq⟩
  have hl : ((getScheme t.data).2 ++ '?' :: q).getLast? = q.getLast? := by
    obtain ⟨x, xs, rfl⟩ := List.exists_cons_of_ne_nil hne
    rw [List.getLast?_append_of_ne_nil _ (List.cons_ne_nil _ _), List.getLast?_cons_cons]
  have h1 : ¬ (((getScheme t.data).2 ++ '?' :: q).getLast? = some '?' ∧
      ((getScheme t.data).2 ++ '?' :: q).count '?' = 1) := by
    intro h
    rw [hl] at h
    exact hlast '?' (by simp [h.1]) rfl
  have e0 : urlParse t = urlOf ((getScheme t.data).1.map Char.toLower) (getScheme t.data).2
      false [] [] := by
    unfold urlParse
    simp only [cut_of_not_mem '#' t.data hsharp, h0, if_false,
      cut_of_not_mem '?' _ hrest]
  have e1 : urlParse (String.mk (t.data ++ '?' :: q)) =
      urlOf ((getScheme t.data).1.map Char.toLower) (getScheme t.data).2 false q [] := by
    unfold urlParse
    simp only [cut_of_not_mem '#' _ hsharp1, getScheme_append_query, h1, if_false,
      cut_append '?' _ q hrest]
  rw [e0, e1]
  refine ⟨urlOf_query _ _ _ _ _, ?_, ?_, ?_⟩
  · exact (urlOf_fields _ _ _ _ _).1
  · exact (urlOf_fields _ _ _ _ _).2.1
  · exact (urlOf_fields _ _ _ _ _).2.2

theorem requestURL_with_id (endpoint path : String) (i : Int)
    (h1 : '#' ∉ endpoint.data) (h2 : '?' ∉ endpoint.data)
    (h3 : '#' ∉ path.data) (h4 : '?' ∉ path.data) :
    requestURL (endpoint ++ (path ++ "?id=") ++ Itoa i) =
      { requestURL (endpoint ++ path) with RawQuery := "id=" ++ Itoa i } ∧
    (requestURL (endpoint ++ path)).RawQuery = "" ∧
    (requestURL (endpoint ++ path)).FragmentText = "" ∧
    (requestURL (endpoint ++ path)).ForceQuery = false := by
  have hq : ∀ c ∈ 'i' :: 'd' :: '=' :: (Itoa i).data, c ≠ '#' ∧ c ≠ '?' := by
    intro c hc
    simp only [List.mem_cons] at hc
    rcases hc with rfl | rfl | rfl | hc
    · decide
    · decide
    · decide
    · have hu := Itoa_unreserved i c hc
      constructor <;> (intro e; rw [e] at hu; exact absurd hu (by decide))
  have htext : endpoint ++ (path ++ "?id=") ++ Itoa i =
      String.mk ((endpoint ++ path).data ++ '?' :: ('i' :: 'd' :: '=' :: (Itoa i).data)) := by
    apply String.ext
    simp [String.data_append]
  have hs : '#' ∉ (endpoint ++ path).data := by
    simp only [String.data_append, List.mem_append, not_or]
    exact ⟨h1, h3⟩
  have hqm : '?' ∉ (endpoint ++ path).data := by
    simp only [String.data_append, List.mem_append, not_or]
    exact ⟨h2, h4⟩
  obtain ⟨e1, e2, e3, e4⟩ := urlParse_append_query (endpoint ++ path)
    ('i' :: 'd' :: '=' :: (Itoa i).data) hs hqm (fun m => (hq _ m).1 rfl)
    (fun c hc => (hq c (List.mem_of_getLast?_eq_some hc)).2) (List.cons_ne_nil _ _)
  refine ⟨?_, e2, e3, e4⟩
  unfold requestURL
  rw [htext, e1]
  rfl

/-! ## C1 -/

/-- C1: every request that any of the five operations of a client built by
`NewClient merchantID apiKey endpoint transport` hands to the transport has
the header `X-Pwinty-MerchantId` with the single value `merchantID` and
the header `X-Pwinty-REST-API-Key` with the single value `apiKey`. -/
theorem auth_headers_on_every_request (DefaultClient : HttpClient)
    (Parse : String → Option Error) (merchantID apiKey endpoint : String)
    (transport : Option HttpClient) (req : Request)
    (h : (∃ id, req ∈
            ((NewClient DefaultClient merchantID apiKey endpoint transport).GetOrder
              Parse id).sent) ∨
         (∃ recipientName address1 address2 town state zip country, req ∈
            ((NewClient DefaultClient merchantID apiKey endpoint transport).PostOrder
              Parse recipientName address1 address2 town state zip country).sent) ∨
         (∃ id status, req ∈
            ((NewClient DefaultClient merchantID apiKey endpoint transport).OrderStatus
              Parse id status).sent) ∨
         (∃ id, req ∈
            ((NewClient DefaultClient merchantID apiKey endpoint transport).SubmissionStatus
              Parse id).sent) ∨
         (∃ orderId photoType photoUrl copies sizing, req ∈
            ((NewClient DefaultClient merchantID apiKey endpoint transport).PostPhotoURL
              Parse orderId photoType photoUrl copies sizing).sent)) :
    req.Header.Values "X-Pwinty-MerchantId" = some [merchantID] ∧
    req.Header.Values "X-Pwinty-REST-API-Key" = some [apiKey] ∧
    req.Header.Get "X-Pwinty-MerchantId" = merchantID ∧
    req.Header.Get "X-Pwinty-REST-API-Key" = apiKey := by
  rcases h with ⟨id, h⟩ | ⟨a1, a2, a3, a4, a5, a6, a7, h⟩ | ⟨id, st, h⟩ | ⟨id, h⟩ |
    ⟨o, t, u, n, z, h⟩
  · rw [mem_GetOrder_sent h]; exact getRequest_auth _ _
  · rw [mem_PostOrder_sent h]; exact formRequest_auth _ _ _
  · rw [mem_OrderStatus_sent h]; exact formRequest_auth _ _ _
  · rw [mem_SubmissionStatus_sent h]; exact getRequest_auth _ _
  · rw [mem_PostPhotoURL_sent h]; exact formRequest_auth _ _ _

theorem auth_headers_on_every_request_witness :
    formRequest (sandboxClient (cannedTransport "{}")) "https://sandbox.pwinty.com/Orders/Status"
        "id=%2A&status=Submitted" ∈
      ((NewClient (cannedTransport "{}") "merchant-1" "key-1" EndpointSandbox none).OrderStatus
        acceptAll 42 "Submitted").sent ∧
    (formRequest (sandboxClient (cannedTransport "{}")) "https://sandbox.pwinty.com/Orders/Status"
        "id=%2A&status=Submitted").Header.Get "X-Pwinty-MerchantId" = "merchant-1" ∧
    (formRequest (sandboxClient (cannedTransport "{}")) "https://sandbox.pwinty.com/Orders/Status"
        "id=%2A&status=Submitted").Header.Get "X-Pwinty-REST-API-Key" = "key-1" :=
  ⟨by decide,
   (auth_headers_on_every_request (cannedTransport "{}") acceptAll "merchant-1" "key-1"
      EndpointSandbox none _ (Or.inr (Or.inr (Or.inl ⟨42, "Submitted", by decide⟩)))).2.2⟩

/-! ## C2 -/

theorem get_url_text (endpoint path : String) (i : Int) :
    endpoint ++ path ++ "?" ++ Values.Encode [("id", [Itoa i])] =
      endpoint ++ (path ++ "?id=") ++ Itoa i := by
  rw [Encode_id]
  apply String.ext
  simp [String.data_append]

/-- C2, as stated, fails for an endpoint with a `#` and for one with an
upper-case scheme: with the endpoint `https://sandbox.pwinty.com/#frag` the
URL of the request of `GetOrder(1)` has an empty query and the id in its
fragment; with the endpoint `HTTP://Example.COM:80/base/` the URL has the
scheme `http`, so its text is not the endpoint followed by `/Orders?id=1`. -/
theorem GetOrder_id_in_fragment :
    (((NewClient (cannedTransport "{}") "merchant-1" "key-1"
          "https://sandbox.pwinty.com/#frag" none).GetOrder acceptAll 1).sent.map
        (fun r => (r.URL.RawQuery, r.URL.FragmentText))) = [("", "frag/Orders?id=1")] ∧
    (((NewClient (cannedTransport "{}") "merchant-1" "key-1"
          "HTTP://Example.COM:80/base/" none).GetOrder acceptAll 1).sent.map
        (fun r => r.URL)) =
      [{ Scheme := "http", Opaque := "", Authority := "Example.COM:80",
         PathText := "/base//Orders", ForceQuery := false, RawQuery := "id=1",
         FragmentText := "" }] := by
  decide

/-- C2, amended: a request `GetOrder id` hands to the transport has method
`GET`, no body, no header but the two authentication headers, and as URL
what `http.NewRequest` makes of the text `endpoint ++ "/Orders?id=" ++ Itoa id`;
a request of `SubmissionStatus id` is the same with the path
`/Orders/SubmissionStatus`.  When the endpoint has neither `#` nor `?`, that
URL is the URL of `endpoint ++ "/Orders"` (which has no query and no
fragment) with the query `id=` followed by the decimal text of the id: the
id is in the query string and nowhere else. -/
theorem get_requests_carry_id_in_query (Parse : String → Option Error) (c : Client)
    (id : Int) :
    (∀ req ∈ (c.GetOrder Parse id).sent,
      req.Method = "GET" ∧
      req.URL = requestURL (c.endpoint ++ "/Orders?id=" ++ Itoa id) ∧
      req.Body = none ∧
      req.Header =
        [("X-Pwinty-Rest-Api-Key", [c.apiKey]), ("X-Pwinty-Merchantid", [c.merchantID])]) ∧
    (∀ req ∈ (c.SubmissionStatus Parse id).sent,
      req.Method = "GET" ∧
      req.URL = requestURL (c.endpoint ++ "/Orders/SubmissionStatus?id=" ++ Itoa id) ∧
      req.Body = none ∧
      req.Header =
        [("X-Pwinty-Rest-Api-Key", [c.apiKey]), ("X-Pwinty-Merchantid", [c.merchantID])]) ∧
    ('#' ∉ c.endpoint.data → '?' ∉ c.endpoint.data →
      (requestURL (c.endpoint ++ "/Orders?id=" ++ Itoa id) =
          { requestURL (c.endpoint ++ "/Orders") with RawQuery := "id=" ++ Itoa id } ∧
        (requestURL (c.endpoint ++ "/Orders")).RawQuery = "" ∧
        (requestURL (c.endpoint ++ "/Orders")).FragmentText = "" ∧
        (requestURL (c.endpoint ++ "/Orders")).ForceQuery = false) ∧
      (requestURL (c.endpoint ++ "/Orders/SubmissionStatus?id=" ++ Itoa id) =
          { requestURL (c.endpoint ++ "/Orders/SubmissionStatus") with
            RawQuery := "id=" ++ Itoa id } ∧
        (requestURL (c.endpoint ++ "/Orders/SubmissionStatus")).RawQuery = "" ∧
        (requestURL (c.endpoint ++ "/Orders/SubmissionStatus")).FragmentText = "" ∧
        (requestURL (c.endpoint ++ "/Orders/SubmissionStatus")).ForceQuery = false)) := by
  refine ⟨?_, ?_, ?_⟩
  · intro req h
    rw [mem_GetOrder_sent h, get_url_text]
    exact ⟨rfl, rfl, rfl, rfl⟩
  · intro req h
    rw [mem_SubmissionStatus_sent h, get_url_text]
    exact ⟨rfl, rfl, rfl, rfl⟩
  · intro h1 h2
    exact ⟨requestURL_with_id c.endpoint "/Orders" id h1 h2 (by decide) (by decide),
      requestURL_with_id c.endpoint "/Orders/SubmissionStatus" id h1 h2 (by decide)
        (by decide)⟩

theorem get_requests_carry_id_in_query_witness :
    getRequest (sandboxClient (cannedTransport "{}"))
        "https://sandbox.pwinty.com/Orders?id=-42" ∈
      ((sandboxClient (cannedTransport "{}")).GetOrder acceptAll (-42)).sent ∧
    '#' ∉ (sandboxClient (cannedTransport "{}")).endpoint.data ∧
    '?' ∉ (sandboxClient (cannedTransport "{}")).endpoint.data ∧
    (getRequest (sandboxClient (cannedTransport "{}"))
        "https://sandbox.pwinty.com/Orders?id=-42").URL =
      requestURL ((sandboxClient (cannedTransport "{}")).endpoint ++ "/Orders?id=" ++
        Itoa (-42)) ∧
    requestURL ((sandboxClient (cannedTransport "{}")).endpoint ++ "/Orders?id=" ++
        Itoa (-42)) =
      { requestURL ((sandboxClient (cannedTransport "{}")).endpoint ++ "/Orders") with
        RawQuery := "id=" ++ Itoa (-42) } ∧
    requestURL "https://sandbox.pwinty.com/Orders?id=-42" =
      { Scheme := "https", Opaque := "", Authority := "sandbox.pwinty.com",
        PathText := "/Orders", ForceQuery := false, RawQuery := "id=-42",
        FragmentText := "" } :=
  ⟨by decide, by decide, by decide,
   ((get_requests_carry_id_in_query acceptAll (sandboxClient (cannedTransport "{}")) (-42)).1
      (getRequest (sandboxClient (cannedTransport "{}"))
        "https://sandbox.pwinty.com/Orders?id=-42") (by decide)).2.1,
   ((get_requests_carry_id_in_query acceptAll (sandboxClient (cannedTransport "{}"))
      (-42)).2.2 (by decide) (by decide)).1.1,
   by decide⟩

/-! ## C5 -/

/-- C5: the requests of the GET operations (`GetOrder`, `SubmissionStatus`)
have no body; the requests of the POST operations (`PostOrder`,
`OrderStatus`, `PostPhotoURL`) have method `POST` and the header
`Content-Type` with the single value `application/x-www-form-urlencoded`. -/
theorem get_has_no_body_post_is_form (Parse : String → Option Error) (c : Client)
    (id orderId copies : Int)
    (recipientName address1 address2 town state zip country status photoType photoUrl
      sizing : String) :
    (∀ req ∈ (c.GetOrder Parse id).sent, req.Body = none) ∧
    (∀ req ∈ (c.SubmissionStatus Parse id).sent, req.Body = none) ∧
    (∀ req ∈ (c.PostOrder Parse recipientName address1 address2 town state zip country).sent,
      req.Method = "POST" ∧
      req.Header.Values "Content-Type" = some ["application/x-www-form-urlencoded"] ∧
      req.Header.Get "Content-Type" = "application/x-www-form-urlencoded") ∧
    (∀ req ∈ (c.OrderStatus Parse id status).sent,
      req.Method = "POST" ∧
      req.Header.Values "Content-Type" = some ["application/x-www-form-urlencoded"] ∧
      req.Header.Get "Content-Type" = "application/x-www-form-urlencoded") ∧
    (∀ req ∈ (c.PostPhotoURL Parse orderId photoType photoUrl copies sizing).sent,
      req.Method = "POST" ∧
      req.Header.Values "Content-Type" = some ["application/x-www-form-urlencoded"] ∧
      req.Header.Get "Content-Type" = "application/x-www-form-urlencoded") := by
  refine ⟨?_, ?_, ?_, ?_, ?_⟩
  · intro req h; rw [mem_GetOrder_sent h]; rfl
  · intro req h; rw [mem_SubmissionStatus_sent h]; rfl
  · intro req h; rw [mem_PostOrder_sent h]; exact ⟨rfl, formRequest_contentType _ _ _⟩
  · intro req h; rw [mem_OrderStatus_sent h]; exact ⟨rfl, formRequest_contentType _ _ _⟩
  · intro req h; rw [mem_PostPhotoURL_sent h]; exact ⟨rfl, formRequest_contentType _ _ _⟩

theorem get_has_no_body_post_is_form_witness :
    formRequest (sandboxClient (cannedTransport "{}")) "https://sandbox.pwinty.com/Orders"
        ("address1=1+High+St&address2=&addressTownOrCity=Leeds&country=UK" ++
          "&postalOrZipCode=LS1&recipientName=Ann&stateOrCounty=Yorks") ∈
      ((sandboxClient (cannedTransport "{}")).PostOrder acceptAll "Ann" "1 High St" "" "Leeds"
        "Yorks" "LS1" "UK").sent ∧
    (formRequest (sandboxClient (cannedTransport "{}")) "https://sandbox.pwinty.com/Orders"
        ("address1=1+High+St&address2=&addressTownOrCity=Leeds&country=UK" ++
          "&postalOrZipCode=LS1&recipientName=Ann&stateOrCounty=Yorks")).Header.Get
        "Content-Type" = "application/x-www-form-urlencoded" :=
  ⟨by decide,
   ((get_has_no_body_post_is_form acceptAll (sandboxClient (cannedTransport "{}")) 1 1 1
      "Ann" "1 High St" "" "Leeds" "Yorks" "LS1" "UK" "" "" "" "").2.2.1 _ (by decide)).2.2⟩

/-! ## C6 -/

/-- C6: for an integer `n` (a Go `int`, 64 bits), a boolean `b` and a string
`s` without quote, backslash or control character, when the round trip of
the request of `GetOrder` succeeds with the body
`{"id":n,"isValid":b,"status":"s","photos":[]}`, `GetOrder` returns no error
and the order with `ID = n`, `IsValid = b`, `Status = s`, `Photos` the empty
(non-nil) slice, and every other field at its zero value. -/
theorem GetOrder_decodes_order (Parse : String → Option Error) (c : Client) (id n : Int)
    (b : Bool) (s : String) (req : Request) (resp : Response)
    (hlo : -2 ^ 63 ≤ n) (hhi : n < 2 ^ 63) (hs : escapeFree s.data = true)
    (hsent : req ∈ (c.GetOrder Parse id).sent) (hdo : c.httpClient req = .ok resp)
    (hbody : resp.Body = .ok (orderBody n b s)) :
    (c.GetOrder Parse id).ret =
      (some { ID := n, IsValid := b, GeneralErrors := none, RecipientName := "",
              Address1 := "", Address2 := "", AddressTownOrCity := "", StateOrCounty := "",
              PostalOrZipCode := "", Country := "", Status := s, Photos := some [] },
       none) := by
  rw [GetOrder_of_sent hsent]
  exact roundTripOrder_decoded hdo hbody (parseJSON_orderBody n b s hs)
    (decodeOrder_orderBody n b s hlo hhi)

theorem GetOrder_decodes_order_witness :
    orderBody 42 true "Submitted" =
      "\x7b\"id\":42,\"isValid\":true,\"status\":\"Submitted\",\"photos\":[]\x7d" ∧
    getRequest (sandboxClient (cannedTransport (orderBody 42 true "Submitted")))
        "https://sandbox.pwinty.com/Orders?id=42" ∈
      ((sandboxClient (cannedTransport (orderBody 42 true "Submitted"))).GetOrder
        acceptAll 42).sent ∧
    ((sandboxClient (cannedTransport (orderBody 42 true "Submitted"))).GetOrder
        acceptAll 42).ret =
      (some { ID := 42, IsValid := true, GeneralErrors := none, RecipientName := "",
              Address1 := "", Address2 := "", AddressTownOrCity := "", StateOrCounty := "",
              PostalOrZipCode := "", Country := "", Status := "Submitted",
              Photos := some [] },
       none) :=
  ⟨by decide, by decide,
   GetOrder_decodes_order acceptAll
     (sandboxClient (cannedTransport (orderBody 42 true "Submitted"))) 42 42 true "Submitted"
     (getRequest (sandboxClient (cannedTransport (orderBody 42 true "Submitted")))
        "https://sandbox.pwinty.com/Orders?id=42")
     { StatusCode := 200, Body := .ok (orderBody 42 true "Submitted") }
     (by decide) (by decide) (by decide) (by decide) rfl rfl⟩

/-! ## C7 -/

/-- C7: for all shipping arguments and every list of messages `msgs`, when the
round trip of the request of `PostOrder` succeeds with the body
`{"isValid":false,"generalErrors":msgs}` (the messages as JSON string
literals), `PostOrder` returns no error and an order with `IsValid = false`
and `GeneralErrors` equal to `msgs`, in the same order; the validation
failure is not turned into an error. -/
theorem PostOrder_reports_validation_in_band (Parse : String → Option Error) (c : Client)
    (recipientName address1 address2 town state zip country : String) (msgs : List String)
    (req : Request) (resp : Response)
    (hsent : req ∈
      (c.PostOrder Parse recipientName address1 address2 town state zip country).sent)
    (hdo : c.httpClient req = .ok resp) (hbody : resp.Body = .ok (validationBody msgs)) :
    (c.PostOrder Parse recipientName address1 address2 town state zip country).ret =
      (some { ID := 0, IsValid := false, GeneralErrors := some msgs, RecipientName := "",
              Address1 := "", Address2 := "", AddressTownOrCity := "", StateOrCounty := "",
              PostalOrZipCode := "", Country := "", Status := "", Photos := none },
       none) := by
  rw [PostOrder_of_sent hsent]
  exact roundTripOrder_decoded hdo hbody (parseJSON_validationBody msgs)
    (decodeOrder_validationBody msgs)

theorem PostOrder_reports_validation_in_band_witness :
    validationBody ["Address1 is required"] =
      "\x7b\"isValid\":false,\"generalErrors\":[\"Address1 is required\"]\x7d" ∧
    formRequest (sandboxClient (cannedTransport (validationBody ["Address1 is required"])))
        "https://sandbox.pwinty.com/Orders"
        ("address1=&address2=&addressTownOrCity=Leeds&country=UK" ++
          "&postalOrZipCode=LS1&recipientName=Ann&stateOrCounty=Yorks") ∈
      ((sandboxClient (cannedTransport (validationBody ["Address1 is required"]))).PostOrder
        acceptAll "Ann" "" "" "Leeds" "Yorks" "LS1" "UK").sent ∧
    ((sandboxClient (cannedTransport (validationBody ["Address1 is required"]))).PostOrder
        acceptAll "Ann" "" "" "Leeds" "Yorks" "LS1" "UK").ret =
      (some { ID := 0, IsValid := false, GeneralErrors := some ["Address1 is required"],
              RecipientName := "", Address1 := "", Address2 := "", AddressTownOrCity := "",
              StateOrCounty := "", PostalOrZipCode := "", Country := "", Status := "",
              Photos := none },
       none) :=
  ⟨by decide, by decide,
   PostOrder_reports_validation_in_band acceptAll
     (sandboxClient (cannedTransport (validationBody ["Address1 is required"])))
     "Ann" "" "" "Leeds" "Yorks" "LS1" "UK" ["Address1 is required"]
     (formRequest (sandboxClient (cannedTransport (validationBody ["Address1 is required"])))
        "https://sandbox.pwinty.com/Orders"
        ("address1=&address2=&addressTownOrCity=Leeds&country=UK" ++
          "&postalOrZipCode=LS1&recipientName=Ann&stateOrCounty=Yorks"))
     { StatusCode := 200, Body := .ok (validationBody ["Address1 is required"]) }
     (by decide) rfl rfl⟩

/-! ## C8 -/

/-- C8: when the round trip of the request an operation handed to the
transport fails with the error `e`, the operation returns `e` itself and no
entity: `GetOrder`, `PostOrder`, `SubmissionStatus` and `PostPhotoURL`
return `(nil, e)`, `OrderStatus` returns `e`. -/
theorem transport_error_is_returned (Parse : String → Option Error) (c : Client) (e : Error)
    (id orderId copies : Int)
    (recipientName address1 address2 town state zip country status photoType photoUrl
      sizing : String) :
    (∀ req ∈ (c.GetOrder Parse id).sent, c.httpClient req = .error e →
      (c.GetOrder Parse id).ret = (none, some e)) ∧
    (∀ req ∈ (c.PostOrder Parse recipientName address1 address2 town state zip country).sent,
      c.httpClient req = .error e →
      (c.PostOrder Parse recipientName address1 address2 town state zip country).ret =
        (none, some e)) ∧
    (∀ req ∈ (c.OrderStatus Parse id status).sent, c.httpClient req = .error e →
      (c.OrderStatus Parse id status).ret = some e) ∧
    (∀ req ∈ (c.SubmissionStatus Parse id).sent, c.httpClient req = .error e →
      (c.SubmissionStatus Parse id).ret = (none, some e)) ∧
    (∀ req ∈ (c.PostPhotoURL Parse orderId photoType photoUrl copies sizing).sent,
      c.httpClient req = .error e →
      (c.PostPhotoURL Parse orderId photoType photoUrl copies sizing).ret = (none, some e)) := by
  refine ⟨?_, ?_, ?_, ?_, ?_⟩
  · intro req h he
    rw [GetOrder_of_sent h]; exact roundTripOrder_transport_error he
  · intro req h he
    rw [PostOrder_of_sent h]; exact roundTripOrder_transport_error he
  · intro req h he
    rw [OrderStatus_of_sent h]; simp [roundTripStatus, he]
  · intro req h he
    rw [SubmissionStatus_of_sent h]; exact roundTripOrder_transport_error he
  · intro req h he
    rw [PostPhotoURL_of_sent h]; exact roundTripPhoto_transport_error he

theorem transport_error_is_returned_witness :
    getRequest (sandboxClient (failingTransport (Error.transport "connection refused")))
        "https://sandbox.pwinty.com/Orders?id=7" ∈
      ((sandboxClient (failingTransport (Error.transport "connection refused"))).GetOrder
        acceptAll 7).sent ∧
    ((sandboxClient (failingTransport (Error.transport "connection refused"))).GetOrder
        acceptAll 7).ret = (none, some (Error.transport "connection refused")) :=
  ⟨by decide,
   (transport_error_is_returned acceptAll
      (sandboxClient (failingTransport (Error.transport "connection refused")))
      (Error.transport "connection refused") 7 1 1 "" "" "" "" "" "" "" "" "" "" "").1
      (getRequest (sandboxClient (failingTransport (Error.transport "connection refused")))
        "https://sandbox.pwinty.com/Orders?id=7") (by decide) rfl⟩

/-! ## C10 -/

/-- C10: `OrderStatus` returns no error whenever the round trip of its request
succeeds, whatever the response; its outcome is the same under any two
transports that succeed; and it returns an error only when building the
request fails or the round trip fails, that error being the one returned. -/
theorem OrderStatus_ignores_response (Parse : String → Option Error) (c : Client) (id : Int)
    (status : String) :
    (∀ req ∈ (c.OrderStatus Parse id status).sent, ∀ resp : Response,
      c.httpClient req = .ok resp → (c.OrderStatus Parse id status).ret = none) ∧
    (∀ t1 t2 : HttpClient, (∀ req, ∃ resp, t1 req = .ok resp) →
      (∀ req, ∃ resp, t2 req = .ok resp) →
      ({ c with httpClient := t1 }.OrderStatus Parse id status).ret =
        ({ c with httpClient := t2 }.OrderStatus Parse id status).ret ∧
      ({ c with httpClient := t1 }.OrderStatus Parse id status).sent =
        ({ c with httpClient := t2 }.OrderStatus Parse id status).sent) ∧
    (∀ err, (c.OrderStatus Parse id status).ret = some err →
      c.prepareFormRequest Parse "POST" "/Orders/Status"
          [("id", [string id]), ("status", [status])] = .error err ∨
      ∃ req ∈ (c.OrderStatus Parse id status).sent, c.httpClient req = .error err) := by
  refine ⟨?_, ?_, ?_⟩
  · intro req h resp hr
    rw [OrderStatus_of_sent h]; simp [roundTripStatus, hr]
  · intro t1 t2 h1 h2
    unfold Client.OrderStatus
    rw [prepareFormRequest_eq, prepareFormRequest_eq]
    cases Parse (c.endpoint ++ "/Orders/Status") with
    | some err => exact ⟨rfl, rfl⟩
    | none =>
      obtain ⟨r1, hr1⟩ := h1 (formRequest { c with httpClient := t1 }
        (c.endpoint ++ "/Orders/Status")
        (Values.Encode [("id", [string id]), ("status", [status])]))
      obtain ⟨r2, hr2⟩ := h2 (formRequest { c with httpClient := t2 }
        (c.endpoint ++ "/Orders/Status")
        (Values.Encode [("id", [string id]), ("status", [status])]))
      simp only [formRequest] at hr1 hr2 ⊢
      rw [hr1, hr2]
      exact ⟨rfl, rfl⟩
  · intro err h
    cases hp : c.prepareFormRequest Parse "POST" "/Orders/Status"
        [("id", [string id]), ("status", [status])] with
    | error e0 =>
      left
      unfold Client.OrderStatus at h
      rw [hp] at h
      simp only [Option.some.injEq] at h
      rw [h]
    | ok req =>
      right
      have hs : (c.OrderStatus Parse id status).sent = [req] := by
        unfold Client.OrderStatus
        rw [hp]
        simp only
        split <;> rfl
      refine ⟨req, by rw [hs]; exact List.mem_singleton.mpr rfl, ?_⟩
      unfold Client.OrderStatus at h
      rw [hp] at h
      simp only at h
      cases hd : c.httpClient req with
      | error e1 =>
        rw [hd] at h
        simp only [Option.some.injEq] at h
        rw [h]
      | ok resp =>
        rw [hd] at h
        simp at h

theorem OrderStatus_ignores_response_witness :
    formRequest (sandboxClient (cannedTransport "rejected")) "https://sandbox.pwinty.com/Orders/Status"
        "id=%2A&status=Submitted" ∈
      ((sandboxClient (cannedTransport "rejected")).OrderStatus acceptAll 42 "Submitted").sent ∧
    ((sandboxClient (cannedTransport "rejected")).OrderStatus acceptAll 42 "Submitted").ret =
      none :=
  ⟨by decide,
   (OrderStatus_ignores_response acceptAll (sandboxClient (cannedTransport "rejected")) 42
      "Submitted").1
      (formRequest (sandboxClient (cannedTransport "rejected"))
        "https://sandbox.pwinty.com/Orders/Status" "id=%2A&status=Submitted")
      (by decide) { StatusCode := 200, Body := .ok "rejected" } rfl⟩

/-! ## C9 -/

/-- C9, as stated, fails for `OrderStatus`: the transport succeeds with the
body `<html>`, which is not a JSON text, and `OrderStatus` returns no
error. -/
theorem OrderStatus_returns_no_decode_error :
    parseJSON "<html>" = none ∧
    formRequest (sandboxClient (cannedTransport "<html>"))
        "https://sandbox.pwinty.com/Orders/Status" "id=%2A&status=Submitted" ∈
      ((sandboxClient (cannedTransport "<html>")).OrderStatus acceptAll 42 "Submitted").sent ∧
    ((sandboxClient (cannedTransport "<html>")).OrderStatus acceptAll 42 "Submitted").ret =
      none :=
  ⟨rfl, by decide, by decide⟩

/-- C9, amended: when the round trip of the request of `GetOrder`,
`PostOrder`, `SubmissionStatus` or `PostPhotoURL` succeeds with a body that
is not a JSON text, the operation returns the decode error and no entity;
`OrderStatus` does not read the body and returns no error. -/
theorem invalid_JSON_is_a_decode_error (Parse : String → Option Error) (c : Client)
    (resp : Response) (body : String) (id orderId copies : Int)
    (recipientName address1 address2 town state zip country status photoType photoUrl
      sizing : String)
    (hb : resp.Body = .ok body) (hj : parseJSON body = none) :
    (∀ req ∈ (c.GetOrder Parse id).sent, c.httpClient req = .ok resp →
      (c.GetOrder Parse id).ret = (none, some Error.invalidJSON)) ∧
    (∀ req ∈ (c.PostOrder Parse recipientName address1 address2 town state zip country).sent,
      c.httpClient req = .ok resp →
      (c.PostOrder Parse recipientName address1 address2 town state zip country).ret =
        (none, some Error.invalidJSON)) ∧
    (∀ req ∈ (c.SubmissionStatus Parse id).sent, c.httpClient req = .ok resp →
      (c.SubmissionStatus Parse id).ret = (none, some Error.invalidJSON)) ∧
    (∀ req ∈ (c.PostPhotoURL Parse orderId photoType photoUrl copies sizing).sent,
      c.httpClient req = .ok resp →
      (c.PostPhotoURL Parse orderId photoType photoUrl copies sizing).ret =
        (none, some Error.invalidJSON)) ∧
    (∀ req ∈ (c.OrderStatus Parse id status).sent, c.httpClient req = .ok resp →
      (c.OrderStatus Parse id status).ret = none) := by
  refine ⟨?_, ?_, ?_, ?_, ?_⟩
  · intro req h hr
    rw [GetOrder_of_sent h]; exact roundTripOrder_invalid hr hb hj
  · intro req h hr
    rw [PostOrder_of_sent h]; exact roundTripOrder_invalid hr hb hj
  · intro req h hr
    rw [SubmissionStatus_of_sent h]; exact roundTripOrder_invalid hr hb hj
  · intro req h hr
    rw [PostPhotoURL_of_sent h]; exact roundTripPhoto_invalid hr hb hj
  · intro req h hr
    rw [OrderStatus_of_sent h]; simp [roundTripStatus, hr]

theorem invalid_JSON_is_a_decode_error_witness :
    parseJSON "\x7b\"id\":42," = none ∧
    getRequest (sandboxClient (cannedTransport "\x7b\"id\":42,"))
        "https://sandbox.pwinty.com/Orders?id=42" ∈
      ((sandboxClient (cannedTransport "\x7b\"id\":42,")).GetOrder acceptAll 42).sent ∧
    ((sandboxClient (cannedTransport "\x7b\"id\":42,")).GetOrder acceptAll 42).ret =
      (none, some Error.invalidJSON) :=
  ⟨rfl, by decide,
   (invalid_JSON_is_a_decode_error acceptAll (sandboxClient (cannedTransport "\x7b\"id\":42,"))
      { StatusCode := 200, Body := .ok "\x7b\"id\":42," } "\x7b\"id\":42," 42 1 1
      "" "" "" "" "" "" "" "" "" "" "" rfl rfl).1
      (getRequest (sandboxClient (cannedTransport "\x7b\"id\":42,"))
        "https://sandbox.pwinty.com/Orders?id=42") (by decide) rfl⟩

/-! ## C3 and C4: the conversion `string(int)` in the form bodies -/

/-- C3, the code at `OrderStatus(42, "Submitted")`: the form body is
`id=%2A&status=Submitted`, the id being the text of the code point 42 (`*`),
while the form encoding of the decimal id, the text `GetOrder` sends, is
`id=42&status=Submitted`; for no id is `string(id)` the decimal text. -/
theorem OrderStatus_sends_code_point :
    (((sandboxClient (cannedTransport "{}")).OrderStatus acceptAll 42 "Submitted").sent.map
        (fun r => r.Body)) = [some "id=%2A&status=Submitted"] ∧
    Values.Encode [("id", [Itoa 42]), ("status", ["Submitted"])] = "id=42&status=Submitted" ∧
    string 42 = "*" ∧ Itoa 42 = "42" ∧ (∀ id : Int, string id ≠ Itoa id) :=
  ⟨by decide, by decide, by decide, by decide, string_ne_Itoa⟩

/-- C4, the code at `PostPhotoURL(12, "4x6", "http://a/b.jpg", 3, "Crop")`:
the form body has `copies=%03` and `orderId=%0C`, the texts of the code
points 3 and 12, while the form encoding of the decimal values has `copies=3`
and `orderId=12`; `sizing=Crop` is as given; for no value is `string(copies)`
the decimal text. -/
theorem PostPhotoURL_sends_code_points :
    (((sandboxClient (cannedTransport "{}")).PostPhotoURL acceptAll 12 "4x6" "http://a/b.jpg" 3
        "Crop").sent.map (fun r => r.Body)) =
      [some "copies=%03&orderId=%0C&sizing=Crop&type=4x6&url=http%3A%2F%2Fa%2Fb.jpg"] ∧
    Values.Encode [("orderId", [Itoa 12]), ("type", ["4x6"]), ("url", ["http://a/b.jpg"]),
        ("copies", [Itoa 3]), ("sizing", ["Crop"])] =
      "copies=3&orderId=12&sizing=Crop&type=4x6&url=http%3A%2F%2Fa%2Fb.jpg" ∧
    string 3 = String.mk [Char.ofNat 3] ∧ Itoa 3 = "3" ∧
    (∀ copies : Int, string copies ≠ Itoa copies) :=
  ⟨by decide, by decide, by decide, by decide, string_ne_Itoa⟩

end Pwinty
